import Mathlib

/-!
Verification of the approach-viz backend (the mrms-rs weather volume pipeline
and the runtime-rs traffic decoder) against its specification.

The Rust sources are shallowly embedded: pure functions become Lean functions,
stateful loops become explicit state passing, machine integers are `Nat`/`Int`
with explicit wrapping or saturation where the Rust casts can overflow, and
`f64`/`f32` arithmetic is modelled by exact fraction arithmetic.  Every
property proved here either does not depend on floating-point rounding at all
(control decisions that hold for arbitrary score values), or involves only
values whose `f64` computations are exact, or provably land on the same side
of every relevant decision boundary as their exact counterparts.

Fractions are kept unreduced (`F` below) so that all arithmetic is plain
integer arithmetic, which the kernel evaluates directly.
-/

set_option maxHeartbeats 1000000

set_option maxRecDepth 10000

/-! ## Exact model of `f64` values -/

/-- An exact fraction `num / den`.  Every value built by the embedding has a
positive denominator; fractions are deliberately not reduced. -/
structure F where
  num : Int
  den : Nat
  deriving Repr, DecidableEq

instance (n : Nat) : OfNat F n := ⟨⟨(n : Int), 1⟩⟩

def F.ofInt (n : Int) : F := ⟨n, 1⟩

def F.add (a b : F) : F := ⟨a.num * b.den + b.num * a.den, a.den * b.den⟩

def F.neg (a : F) : F := ⟨-a.num, a.den⟩

def F.sub (a b : F) : F := ⟨a.num * b.den - b.num * a.den, a.den * b.den⟩

def F.mul (a b : F) : F := ⟨a.num * b.num, a.den * b.den⟩

/-- Division.  Division by zero (den = 0 in the result) never occurs on the
embedded code paths, which guard their divisors. -/
def F.div (a b : F) : F :=
  if b.num < 0 then ⟨-(a.num * b.den), a.den * b.num.natAbs⟩
  else ⟨a.num * b.den, a.den * b.num.natAbs⟩

def F.abs (a : F) : F := ⟨|a.num|, a.den⟩

instance : Add F := ⟨F.add⟩
instance : Sub F := ⟨F.sub⟩
instance : Neg F := ⟨F.neg⟩
instance : Mul F := ⟨F.mul⟩
instance : Div F := ⟨F.div⟩

/-- Value-level order (valid for positive denominators). -/
instance : LE F := ⟨fun a b => a.num * (b.den : Int) ≤ b.num * (a.den : Int)⟩

instance : LT F := ⟨fun a b => a.num * (b.den : Int) < b.num * (a.den : Int)⟩

instance (a b : F) : Decidable (a ≤ b) :=
  inferInstanceAs (Decidable (a.num * (b.den : Int) ≤ b.num * (a.den : Int)))

instance (a b : F) : Decidable (a < b) :=
  inferInstanceAs (Decidable (a.num * (b.den : Int) < b.num * (a.den : Int)))

/-- Value-level equality test (cross multiplication). -/
def F.veq (a b : F) : Prop := a.num * (b.den : Int) = b.num * (a.den : Int)

instance (a b : F) : Decidable (a.veq b) :=
  inferInstanceAs (Decidable (a.num * (b.den : Int) = b.num * (a.den : Int)))

/-- `f64::max` (the NaN case cannot arise in the exact model). -/
def F.fmax (a b : F) : F := if a ≤ b then b else a

/-- `f64::min`. -/
def F.fmin (a b : F) : F := if b ≤ a then b else a

/-- Floor of a fraction with positive denominator. -/
def F.floor (a : F) : Int := Int.fdiv a.num a.den

/-- Truncation toward zero (the semantics of Rust `as i64` on an `f64`,
ignoring the saturation bound, which is never reached here). -/
def F.trunc (a : F) : Int := a.num / (a.den : Int)

/-! ## Numeric helpers (src/services/mrms-rs/src/utils.rs) -/

/-- Rounding mode of Rust `f64::round`: nearest integer, halves away from
zero. -/
def roundHalfAway (q : F) : Int :=
  if (0 : F) ≤ q then (q.add ⟨1, 2⟩).floor else -(((q.neg).add ⟨1, 2⟩).floor)

/-- `round_i16` from utils.rs: round, then clamp to the `i16` range.
(The non-finite guard of the original cannot fire in the exact model.) -/
def round_i16 (value : F) : Int :=
  max (-32768) (min (roundHalfAway value) 32767)

/-- `round_u16` from utils.rs: round, then clamp to the `u16` range. -/
def round_u16 (value : F) : Nat :=
  (max 0 (min (roundHalfAway value) 65535)).toNat

/-- `clamp` from utils.rs (`value.max(min_value).min(max_value)`). -/
def fclamp (value min_value max_value : F) : F :=
  F.fmin (F.fmax value min_value) max_value

/-- Truncated remainder, the semantics of Rust `%` on `f64`. -/
def tRem (a b : F) : F := a.sub (b.mul (F.ofInt ((a.div b).trunc)))

/-- `to_lon360` from utils.rs: normalize a longitude into `[0, 360)`. -/
def to_lon360 (lon_deg : F) : F :=
  let normalized := tRem lon_deg 360
  if normalized < 0 then normalized.add 360 else normalized

/-- `shortest_lon_delta_degrees` from utils.rs. -/
def shortest_lon_delta_degrees (lon_deg360 origin_lon_deg360 : F) : F :=
  let delta := lon_deg360.sub origin_lon_deg360
  let delta := if (180 : F) < delta then delta.sub 360 else delta
  if delta < -(180 : F) then delta.add 360 else delta

/-! ## Level bounds (src/services/mrms-rs/src/ingest.rs `compute_level_bounds`
applied to the 33 `LEVEL_TAGS` of constants.rs parsed as `f64`; every tag is a
multiple of 0.25, so the parses are exact). -/

/-- `FEET_PER_KM` from constants.rs (3280.84). -/
def FEET_PER_KM : F := ⟨328084, 100⟩

/-- `FEET_PER_METER` from constants.rs (3.28084). -/
def FEET_PER_METER : F := ⟨328084, 100000⟩

/-- The 33 fixed level heights in km MSL (`LEVEL_TAGS` parsed as numbers). -/
def LEVEL_KM : List F :=
  [⟨50, 100⟩, ⟨75, 100⟩, ⟨100, 100⟩, ⟨125, 100⟩, ⟨150, 100⟩, ⟨175, 100⟩,
   ⟨200, 100⟩, ⟨225, 100⟩, ⟨250, 100⟩, ⟨275, 100⟩, ⟨300, 100⟩, ⟨350, 100⟩,
   ⟨400, 100⟩, ⟨450, 100⟩, ⟨500, 100⟩, ⟨550, 100⟩, ⟨600, 100⟩, ⟨650, 100⟩,
   ⟨700, 100⟩, ⟨750, 100⟩, ⟨800, 100⟩, ⟨850, 100⟩, ⟨900, 100⟩, ⟨1000, 100⟩,
   ⟨1100, 100⟩, ⟨1200, 100⟩, ⟨1300, 100⟩, ⟨1400, 100⟩, ⟨1500, 100⟩,
   ⟨1600, 100⟩, ⟨1700, 100⟩, ⟨1800, 100⟩, ⟨1900, 100⟩]

/-- Per-level vertical bounds in feet (`LevelBounds` of types.rs). -/
structure LevelBounds where
  bottom_feet : Nat
  top_feet : Nat
  deriving DecidableEq, Repr

instance : Inhabited LevelBounds := ⟨⟨0, 0⟩⟩

/-- `compute_level_bounds` from ingest.rs: midpoints to neighboring levels
(mirrored extrapolation at the two ends), converted to feet and rounded. -/
def compute_level_bounds (level_km : List F) : List LevelBounds :=
  (List.range level_km.length).map (fun idx =>
    let level := level_km.getD idx 0
    let previous : Option F := if 0 < idx then some (level_km.getD (idx - 1) 0) else none
    let next : Option F := level_km.get? (idx + 1)
    let bottom_km :=
      match previous with
      | some prev => (prev.add level).div 2
      | none =>
          let next_level := next.getD (level.add ⟨1, 2⟩)
          F.fmax (level.sub ((next_level.sub level).div 2)) 0
    let top_km :=
      match next with
      | some next_level => (level.add next_level).div 2
      | none =>
          let prev_level := previous.getD (level.sub ⟨1, 2⟩)
          level.add ((level.sub prev_level).div 2)
    { bottom_feet := round_u16 (bottom_km.mul FEET_PER_KM),
      top_feet := round_u16 (top_km.mul FEET_PER_KM) })

/-- The level bounds actually used by the ingest (33 fixed levels). -/
def mrmsLevelBounds : List LevelBounds := compute_level_bounds LEVEL_KM

/-- C10: for the fixed 33-level tag list, consecutive levels abut exactly
(each level's bottom equals the previous level's top, both being the rounded
midpoint of the same neighboring pair); hence bottoms never exceed tops, tops
are non-decreasing across levels, and the V2 vertical-extension gap condition
`next.bottom_feet ≤ current.top_feet.saturating_add(1)` holds for every
adjacent level pair. -/
theorem compute_level_bounds_abut_fixed_levels :
    mrmsLevelBounds.length = 33 ∧
    (∀ i < 32, (mrmsLevelBounds.getD (i + 1) default).bottom_feet
        = (mrmsLevelBounds.getD i default).top_feet) ∧
    (∀ i < 33, (mrmsLevelBounds.getD i default).bottom_feet
        ≤ (mrmsLevelBounds.getD i default).top_feet) ∧
    (∀ i < 32, (mrmsLevelBounds.getD i default).top_feet
        ≤ (mrmsLevelBounds.getD (i + 1) default).top_feet) ∧
    (∀ i < 32, (mrmsLevelBounds.getD (i + 1) default).bottom_feet
        ≤ min ((mrmsLevelBounds.getD i default).top_feet + 1) 65535) := by
  decide

/-- Witness instantiating the bounded quantifiers of the previous theorem at
level index 4. -/
theorem compute_level_bounds_abut_fixed_levels_witness :
    (mrmsLevelBounds.getD 5 default).bottom_feet
        = (mrmsLevelBounds.getD 4 default).top_feet ∧
    (mrmsLevelBounds.getD 4 default).bottom_feet
        ≤ (mrmsLevelBounds.getD 4 default).top_feet ∧
    (mrmsLevelBounds.getD 4 default).top_feet
        ≤ (mrmsLevelBounds.getD 5 default).top_feet ∧
    (mrmsLevelBounds.getD 5 default).bottom_feet
        ≤ min ((mrmsLevelBounds.getD 4 default).top_feet + 1) 65535 :=
  ⟨compute_level_bounds_abut_fixed_levels.2.1 4 (by decide),
   compute_level_bounds_abut_fixed_levels.2.2.1 4 (by decide),
   compute_level_bounds_abut_fixed_levels.2.2.2.1 4 (by decide),
   compute_level_bounds_abut_fixed_levels.2.2.2.2 4 (by decide)⟩


/-! ## Lexical string order.  Rust compares `&str` values byte-wise; all
timestamps are ASCII, so comparing Unicode scalar values sequence-wise is
identical.  (Lean's built-in `String` order is not used because it does not
evaluate inside the kernel.) -/

/-- Lexical less-or-equal on character lists, by scalar value. -/
def chars_le : List Char → List Char → Bool
  | [], _ => true
  | _ :: _, [] => false
  | a :: as, b :: bs =>
      if a.toNat < b.toNat then true
      else if b.toNat < a.toNat then false
      else chars_le as bs

/-- Lexical less-or-equal on strings (the order Rust uses on `&str`). -/
def str_le (a b : String) : Bool := chars_le a.data b.data

theorem chars_le_refl (a : List Char) : chars_le a a = true := by
  induction a with
  | nil => rfl
  | cons x xs ih => simp [chars_le, ih]

theorem chars_le_total (a b : List Char) :
    chars_le a b = true ∨ chars_le b a = true := by
  induction a generalizing b with
  | nil => left; rfl
  | cons x xs ih =>
      cases b with
      | nil => right; rfl
      | cons y ys =>
          by_cases hxy : x.toNat < y.toNat
          · left; simp [chars_le, hxy]
          · by_cases hyx : y.toNat < x.toNat
            · right; simp [chars_le, hyx]
            · rcases ih ys with h | h
              · left; simp [chars_le, hxy, hyx, h]
              · right; simp [chars_le, hxy, hyx, h]

theorem chars_le_cons (x y : Char) (xs ys : List Char) :
    chars_le (x :: xs) (y :: ys)
      = if x.toNat < y.toNat then true
        else if y.toNat < x.toNat then false else chars_le xs ys := rfl

theorem chars_le_trans {a b c : List Char} (hab : chars_le a b = true)
    (hbc : chars_le b c = true) : chars_le a c = true := by
  induction a generalizing b c with
  | nil => rfl
  | cons x xs ih =>
      cases b with
      | nil => exact absurd hab (by simp [chars_le])
      | cons y ys =>
          cases c with
          | nil => exact absurd hbc (by simp [chars_le])
          | cons z zs =>
              rw [chars_le_cons] at hab hbc ⊢
              rcases Nat.lt_trichotomy x.toNat y.toNat with hxy | hxy | hxy
              · rcases Nat.lt_trichotomy y.toNat z.toNat with hyz | hyz | hyz
                · exact if_pos (Nat.lt_trans hxy hyz)
                · exact if_pos (by omega)
                · rw [if_neg (by omega), if_pos hyz] at hbc
                  exact absurd hbc (by simp)
              · rcases Nat.lt_trichotomy y.toNat z.toNat with hyz | hyz | hyz
                · exact if_pos (by omega)
                · rw [if_neg (by omega), if_neg (by omega)] at hab hbc
                  rw [if_neg (by omega : ¬ x.toNat < z.toNat),
                    if_neg (by omega : ¬ z.toNat < x.toNat)]
                  exact ih hab hbc
                · rw [if_neg (by omega), if_pos hyz] at hbc
                  exact absurd hbc (by simp)
              · rw [if_neg (by omega), if_pos hxy] at hab
                exact absurd hab (by simp)

theorem str_le_refl (a : String) : str_le a a = true := chars_le_refl a.data

theorem str_le_total (a b : String) : str_le a b = true ∨ str_le b a = true :=
  chars_le_total a.data b.data

theorem str_le_trans {a b c : String} (hab : str_le a b = true)
    (hbc : str_le b c = true) : str_le a c = true :=
  chars_le_trans hab hbc

/-! ## Scheduler state (src/services/mrms-rs/src/ingest.rs).  The pending
`HashMap<String, PendingIngest>` is modelled as an association list with
unique keys; `Instant` is modelled as a natural number. -/

/-- `PendingIngest` from types.rs. -/
structure PendingIngest where
  attempts : Nat
  next_attempt_at : Nat
  deriving DecidableEq, Repr

/-- One fold step of the selection loop of `ingest_scheduler_loop`
(ingest.rs): skip entries that are not yet due; among due entries keep the
current selection exactly when the source guard
`entry.next_attempt_at > current_due_at || (entry.next_attempt_at ==
current_due_at && timestamp >= current_timestamp)` holds, and replace it
otherwise. -/
def select_step (now : Nat) (selected : Option (String × Nat))
    (te : String × PendingIngest) : Option (String × Nat) :=
  if te.2.next_attempt_at ≤ now then
    match selected with
    | some (current_timestamp, current_due_at) =>
        if current_due_at < te.2.next_attempt_at ∨
            (te.2.next_attempt_at = current_due_at ∧
              str_le current_timestamp te.1 = true) then
          some (current_timestamp, current_due_at)
        else
          some (te.1, te.2.next_attempt_at)
    | none => some (te.1, te.2.next_attempt_at)
  else selected

/-- The candidate selection of `ingest_scheduler_loop`: fold the step over
the pending entries.  The `HashMap` iteration order is immaterial because the
result is proved below to be a minimum of `(next_attempt_at, timestamp)` over
the due entries. -/
def select_due_candidate (now : Nat) (pending : List (String × PendingIngest)) :
    Option (String × Nat) :=
  pending.foldl (select_step now) none

/-- `enqueue_timestamp` from ingest.rs: refuse timestamps at or below the
latest published snapshot timestamp and timestamps in `recent_timestamps`;
otherwise expedite an existing pending entry (`next_attempt_at := now`,
attempts untouched) or insert a fresh entry with zero attempts. -/
def enqueue_timestamp (latest : Option String) (recent : List String)
    (pending : List (String × PendingIngest)) (timestamp : String) (now : Nat) :
    List (String × PendingIngest) :=
  match latest with
  | some l =>
      if str_le timestamp l then pending
      else enqueue_unchecked recent pending timestamp now
  | none => enqueue_unchecked recent pending timestamp now
where
  /-- The part of `enqueue_timestamp` after the latest-timestamp filter. -/
  enqueue_unchecked (recent : List String) (pending : List (String × PendingIngest))
      (timestamp : String) (now : Nat) : List (String × PendingIngest) :=
    if timestamp ∈ recent then pending
    else if pending.any (fun e => e.1 = timestamp) then
      pending.map (fun e =>
        if e.1 = timestamp then (e.1, ⟨e.2.attempts, now⟩) else e)
    else pending ++ [(timestamp, ⟨0, now⟩)]

/-- Accumulator order of the selection fold: earlier due instant first, ties
broken by lexically smaller timestamp. -/
def acc_le (a b : String × Nat) : Prop :=
  a.2 < b.2 ∨ (a.2 = b.2 ∧ str_le a.1 b.1 = true)

theorem acc_le_refl (a : String × Nat) : acc_le a a :=
  Or.inr ⟨rfl, str_le_refl a.1⟩

theorem acc_le_trans {a b c : String × Nat} (hab : acc_le a b)
    (hbc : acc_le b c) : acc_le a c := by
  rcases hab with h | ⟨h1, h2⟩ <;> rcases hbc with g | ⟨g1, g2⟩
  · exact Or.inl (Nat.lt_trans h g)
  · exact Or.inl (g1 ▸ h)
  · exact Or.inl (h1 ▸ g)
  · exact Or.inr ⟨h1.trans g1, str_le_trans h2 g2⟩

theorem select_step_some (now : Nat) (p : String × Nat)
    (te : String × PendingIngest) :
    ∃ q, select_step now (some p) te = some q ∧ acc_le q p := by
  unfold select_step
  by_cases hdue : te.2.next_attempt_at ≤ now
  · simp only [hdue, if_true]
    by_cases hguard : p.2 < te.2.next_attempt_at ∨
        (te.2.next_attempt_at = p.2 ∧ str_le p.1 te.1 = true)
    · exact ⟨p, by simp [hguard], acc_le_refl p⟩
    · refine ⟨(te.1, te.2.next_attempt_at), by simp [hguard], ?_⟩
      push_neg at hguard
      rcases Nat.lt_trichotomy te.2.next_attempt_at p.2 with h | h | h
      · exact Or.inl h
      · rcases str_le_total te.1 p.1 with hle | hle
        · exact Or.inr ⟨h, hle⟩
        · exact absurd hle (hguard.2 h)
      · exact absurd h (Nat.not_lt.mpr hguard.1)
  · exact ⟨p, by simp [hdue], acc_le_refl p⟩

theorem select_fold_some (now : Nat) (l : List (String × PendingIngest)) :
    ∀ p : String × Nat, ∃ q, l.foldl (select_step now) (some p) = some q ∧
      acc_le q p := by
  induction l with
  | nil => exact fun p => ⟨p, rfl, acc_le_refl p⟩
  | cons e rest ih =>
      intro p
      obtain ⟨r, hr, hrp⟩ := select_step_some now p e
      obtain ⟨q, hq, hqr⟩ := ih r
      exact ⟨q, by simpa [hr] using hq, acc_le_trans hqr hrp⟩

theorem select_fold_min (now : Nat) (l : List (String × PendingIngest)) :
    ∀ (acc : Option (String × Nat)) (q : String × Nat),
      l.foldl (select_step now) acc = some q →
      ∀ e ∈ l, e.2.next_attempt_at ≤ now →
        acc_le q (e.1, e.2.next_attempt_at) := by
  induction l with
  | nil => intro acc q _ e he; exact absurd he (List.not_mem_nil e)
  | cons e0 rest ih =>
      intro acc q hq e he hdue
      rcases List.mem_cons.mp he with heq | hmem
      · subst heq
        have hstep : ∃ r, select_step now acc e = some r ∧
            acc_le r (e.1, e.2.next_attempt_at) := by
          cases acc with
          | none =>
              refine ⟨(e.1, e.2.next_attempt_at), ?_, acc_le_refl _⟩
              simp [select_step, hdue]
          | some p =>
              by_cases hguard : p.2 < e.2.next_attempt_at ∨
                  (e.2.next_attempt_at = p.2 ∧ str_le p.1 e.1 = true)
              · refine ⟨p, by simp [select_step, hdue, hguard], ?_⟩
                rcases hguard with h | ⟨h1, h2⟩
                · exact Or.inl h
                · exact Or.inr ⟨h1.symm, h2⟩
              · exact ⟨(e.1, e.2.next_attempt_at),
                  by simp [select_step, hdue, hguard], acc_le_refl _⟩
        obtain ⟨r, hr, hre⟩ := hstep
        obtain ⟨q2, hq2, hq2r⟩ := select_fold_some now rest r
        have hq2q : q2 = q := by
          have hfold : rest.foldl (select_step now) (select_step now acc e)
              = some q := hq
          rw [hr] at hfold
          exact Option.some.inj (hq2.symm.trans hfold)
        exact hq2q ▸ acc_le_trans hq2r hre
      · exact ih (select_step now acc e0) q hq e hmem hdue

theorem select_fold_mem (now : Nat) (l : List (String × PendingIngest)) :
    ∀ (acc : Option (String × Nat)) (q : String × Nat),
      l.foldl (select_step now) acc = some q →
      acc = some q ∨
        ∃ e ∈ l, e.1 = q.1 ∧ e.2.next_attempt_at = q.2 ∧ q.2 ≤ now := by
  induction l with
  | nil => intro acc q hq; exact Or.inl hq
  | cons e0 rest ih =>
      intro acc q hq
      rcases ih (select_step now acc e0) q hq with hacc | ⟨e, he, hq1, hq2, hq3⟩
      · by_cases hdue : e0.2.next_attempt_at ≤ now
        · cases acc with
          | none =>
              right
              refine ⟨e0, List.mem_cons_self e0 rest, ?_⟩
              have : some (e0.1, e0.2.next_attempt_at) = some q := by
                simpa [select_step, hdue] using hacc
              obtain rfl := Option.some.inj this
              exact ⟨rfl, rfl, hdue⟩
          | some p =>
              by_cases hguard : p.2 < e0.2.next_attempt_at ∨
                  (e0.2.next_attempt_at = p.2 ∧ str_le p.1 e0.1 = true)
              · left
                simpa [select_step, hdue, hguard] using hacc
              · right
                refine ⟨e0, List.mem_cons_self e0 rest, ?_⟩
                have : some (e0.1, e0.2.next_attempt_at) = some q := by
                  simpa [select_step, hdue, hguard] using hacc
                obtain rfl := Option.some.inj this
                exact ⟨rfl, rfl, hdue⟩
        · left; simpa [select_step, hdue] using hacc
      · exact Or.inr ⟨e, List.mem_cons_of_mem e0 he, hq1, hq2, hq3⟩

theorem select_fold_complete (now : Nat) (l : List (String × PendingIngest)) :
    ∀ acc : Option (String × Nat),
      ((∃ e ∈ l, e.2.next_attempt_at ≤ now) ∨ acc.isSome) →
      (l.foldl (select_step now) acc).isSome := by
  induction l with
  | nil =>
      intro acc h
      rcases h with ⟨e, he, _⟩ | h
      · exact absurd he (List.not_mem_nil e)
      · exact h
  | cons e0 rest ih =>
      intro acc h
      rcases h with ⟨e, he, hdue⟩ | hsome
      · rcases List.mem_cons.mp he with rfl | hmem
        · apply ih
          right
          cases acc with
          | none => simp [select_step, hdue]
          | some p =>
              by_cases hguard : p.2 < e.2.next_attempt_at ∨
                  (e.2.next_attempt_at = p.2 ∧ str_le p.1 e.1 = true) <;>
                simp [select_step, hdue, hguard]
        · exact ih _ (Or.inl ⟨e, hmem, hdue⟩)
      · apply ih
        right
        obtain ⟨p, rfl⟩ := Option.isSome_iff_exists.mp hsome
        obtain ⟨q, hq, _⟩ := select_step_some now p e0
        simp [hq]

/-- C2 counterexample: with two pending entries both due at instant 0 and the
loop running at `now = 0`, the code selects the entry with the lexically
*smallest* timestamp, not the greatest as the claim states. -/
theorem scheduler_prefers_smallest_counterexample :
    select_due_candidate 0
      [("20260101-000000", ⟨3, 0⟩), ("20260101-000100", ⟨1, 0⟩)]
      = some ("20260101-000000", 0) ∧
    str_le "20260101-000000" "20260101-000100" = true ∧
    "20260101-000000" ≠ "20260101-000100" := by decide

/-- C2 (amended): whenever at least one pending entry is due
(`next_attempt_at ≤ now`) the scheduler loop selects a due entry, and the
selected entry has the *earliest* `next_attempt_at` among due entries; ties on
the due instant are broken towards the lexically *smallest* timestamp. -/
theorem scheduler_selects_earliest_due (now : Nat)
    (pending : List (String × PendingIngest)) :
    ((∃ e ∈ pending, e.2.next_attempt_at ≤ now) →
        (select_due_candidate now pending).isSome) ∧
    (∀ ts due, select_due_candidate now pending = some (ts, due) →
        due ≤ now ∧
        (∃ e ∈ pending, e.1 = ts ∧ e.2.next_attempt_at = due) ∧
        (∀ e ∈ pending, e.2.next_attempt_at ≤ now →
            due < e.2.next_attempt_at ∨
              (due = e.2.next_attempt_at ∧ str_le ts e.1 = true))) := by
  constructor
  · intro h
    exact select_fold_complete now pending none (Or.inl h)
  · intro ts due hsel
    have hmem := select_fold_mem now pending none (ts, due) hsel
    rcases hmem with hnone | ⟨e, he, h1, h2, h3⟩
    · exact absurd hnone (by simp)
    · refine ⟨h3, ⟨e, he, h1, h2⟩, ?_⟩
      intro e2 he2 hdue2
      have := select_fold_min now pending none (ts, due) hsel e2 he2 hdue2
      rcases this with h | ⟨h, hle⟩
      · exact Or.inl h
      · exact Or.inr ⟨h, hle⟩

/-- Witness for the amended C2 theorem on a concrete pending map. -/
theorem scheduler_selects_earliest_due_witness :
    (select_due_candidate 5
      [("20260101-001000", ⟨0, 9⟩), ("20260101-000200", ⟨2, 3⟩)]).isSome ∧
    (3 ≤ 5 ∧
      (∃ e ∈ [(("20260101-001000" : String), (⟨0, 9⟩ : PendingIngest)),
              ("20260101-000200", ⟨2, 3⟩)],
        e.1 = "20260101-000200" ∧ e.2.next_attempt_at = 3) ∧
      (∀ e ∈ [(("20260101-001000" : String), (⟨0, 9⟩ : PendingIngest)),
              ("20260101-000200", ⟨2, 3⟩)],
        e.2.next_attempt_at ≤ 5 →
          3 < e.2.next_attempt_at ∨
            (3 = e.2.next_attempt_at ∧
              str_le "20260101-000200" e.1 = true))) :=
  ⟨(scheduler_selects_earliest_due 5
      [("20260101-001000", ⟨0, 9⟩), ("20260101-000200", ⟨2, 3⟩)]).1
    ⟨("20260101-000200", ⟨2, 3⟩), by decide, by decide⟩,
   (scheduler_selects_earliest_due 5
      [("20260101-001000", ⟨0, 9⟩), ("20260101-000200", ⟨2, 3⟩)]).2
    "20260101-000200" 3 (by decide)⟩

/-- C7: enqueueing is a no-op for timestamps lexically at or below the latest
published snapshot timestamp and for timestamps in `recent_timestamps`; a new
timestamp inserts a pending entry with `attempts = 0`; an already-pending
timestamp only has its `next_attempt_at` reset to `now` (attempts kept); and
enqueueing the same fresh timestamp twice leaves exactly one pending entry for
it, with `attempts = 0`. -/
theorem enqueue_timestamp_dedupe (latest : Option String) (recent : List String)
    (pending : List (String × PendingIngest)) (ts : String) (now : Nat) :
    (∀ l, latest = some l → str_le ts l = true →
        enqueue_timestamp latest recent pending ts now = pending) ∧
    (ts ∈ recent → enqueue_timestamp latest recent pending ts now = pending) ∧
    ((∀ l, latest = some l → str_le ts l = false) → ts ∉ recent →
        (∀ e ∈ pending, e.1 ≠ ts) →
        enqueue_timestamp latest recent pending ts now
          = pending ++ [(ts, ⟨0, now⟩)]) ∧
    ((∀ l, latest = some l → str_le ts l = false) → ts ∉ recent →
        (∃ e ∈ pending, e.1 = ts) →
        enqueue_timestamp latest recent pending ts now
          = pending.map (fun e =>
              if e.1 = ts then (e.1, ⟨e.2.attempts, now⟩) else e)) ∧
    ((∀ l, latest = some l → str_le ts l = false) → ts ∉ recent →
        (∀ e ∈ pending, e.1 ≠ ts) →
        ∀ now2,
          ((enqueue_timestamp latest recent
              (enqueue_timestamp latest recent pending ts now) ts now2).countP
            (fun e => e.1 = ts)) = 1 ∧
          (∀ e ∈ enqueue_timestamp latest recent
              (enqueue_timestamp latest recent pending ts now) ts now2,
            e.1 = ts → e.2 = ⟨0, now2⟩)) := by
  have hnoop : ∀ l, latest = some l → str_le ts l = true →
      enqueue_timestamp latest recent pending ts now = pending := by
    intro l hl hle
    simp [enqueue_timestamp, hl, hle]
  have hrec : ts ∈ recent → enqueue_timestamp latest recent pending ts now = pending := by
    intro hmem
    cases latest with
    | none => simp [enqueue_timestamp, enqueue_timestamp.enqueue_unchecked, hmem]
    | some l =>
        by_cases hle : str_le ts l = true
        · simp [enqueue_timestamp, hle]
        · simp only [Bool.not_eq_true] at hle
          simp [enqueue_timestamp, hle, enqueue_timestamp.enqueue_unchecked, hmem]
  have hpass : ∀ (p : List (String × PendingIngest)) (n : Nat),
      (∀ l, latest = some l → str_le ts l = false) →
      enqueue_timestamp latest recent p ts n
        = enqueue_timestamp.enqueue_unchecked recent p ts n := by
    intro p n hblock
    cases latest with
    | none => rfl
    | some l => simp [enqueue_timestamp, hblock l rfl]
  have hfresh : (∀ l, latest = some l → str_le ts l = false) → ts ∉ recent →
      (∀ e ∈ pending, e.1 ≠ ts) →
      enqueue_timestamp latest recent pending ts now
        = pending ++ [(ts, ⟨0, now⟩)] := by
    intro hblock hrecent hkeys
    rw [hpass pending now hblock]
    have hany : pending.any (fun e => e.1 = ts) = false := by
      simp only [List.any_eq_false, decide_eq_true_eq]
      exact hkeys
    simp [enqueue_timestamp.enqueue_unchecked, hrecent, hany]
  refine ⟨hnoop, hrec, hfresh, ?_, ?_⟩
  · intro hblock hrecent hexist
    rw [hpass pending now hblock]
    have hany : pending.any (fun e => e.1 = ts) = true := by
      simp only [List.any_eq_true, decide_eq_true_eq]
      exact hexist
    simp [enqueue_timestamp.enqueue_unchecked, hrecent, hany]
  · intro hblock hrecent hkeys now2
    rw [hfresh hblock hrecent hkeys]
    have hany : (pending ++ [(ts, (⟨0, now⟩ : PendingIngest))]).any
        (fun e => e.1 = ts) = true := by
      simp
    rw [hpass _ now2 hblock]
    simp only [enqueue_timestamp.enqueue_unchecked, if_neg hrecent, hany, if_true]
    constructor
    · rw [List.countP_map, List.countP_append]
      have h0 : pending.countP
          ((fun e => decide (e.1 = ts)) ∘ fun e =>
            if e.1 = ts then (e.1, ⟨e.2.attempts, now2⟩) else e) = 0 := by
        rw [List.countP_eq_zero]
        intro e he
        have := hkeys e he
        simp [Function.comp, this]
      simp [h0, Function.comp]
    · intro e he heq
      rcases List.mem_map.mp he with ⟨a, ha, rfl⟩
      rcases List.mem_append.mp ha with hmem | hmem
      · have hne := hkeys a hmem
        rw [if_neg hne] at heq
        exact absurd heq hne
      · simp only [List.mem_singleton] at hmem
        subst hmem
        simp

/-- Witness for the C7 theorem on the S1 scenario values. -/
theorem enqueue_timestamp_dedupe_witness :
    enqueue_timestamp (some "20260101-001200") [] [] "20260101-001200" 7 = [] ∧
    ((enqueue_timestamp (some "20260101-001200") []
        (enqueue_timestamp (some "20260101-001200") [] [] "20260101-001400" 8)
        "20260101-001400" 9).countP (fun e => e.1 = "20260101-001400") = 1 ∧
      (∀ e ∈ enqueue_timestamp (some "20260101-001200") []
          (enqueue_timestamp (some "20260101-001200") [] [] "20260101-001400" 8)
          "20260101-001400" 9,
        e.1 = "20260101-001400" → e.2 = ⟨0, 9⟩)) := by
  refine ⟨(enqueue_timestamp_dedupe (some "20260101-001200") [] []
      "20260101-001200" 7).1 "20260101-001200" rfl (by decide), ?_⟩
  exact (enqueue_timestamp_dedupe (some "20260101-001200") [] []
      "20260101-001400" 8).2.2.2.2
    (by intro l hl; injection hl with h2; subst h2; decide)
    (by simp)
    (by intro e he; exact absurd he (List.not_mem_nil e))
    9

/-! ## Phase resolver (src/services/mrms-rs/src/ingest.rs).  Phases are
`RAIN = 0`, `MIXED = 1`, `SNOW = 2` (constants.rs); `f32` scores are modelled
by exact fractions. -/

def PHASE_RAIN : Nat := 0
def PHASE_MIXED : Nat := 1
def PHASE_SNOW : Nat := 2

/-- `PhaseScores` from ingest.rs. -/
structure PhaseScores where
  rain : F
  mixed : F
  snow : F

/-- `PhaseScores::add`: ignore non-positive weights (and the non-finite ones,
which cannot arise in the exact model). -/
def PhaseScores.addW (s : PhaseScores) (phase : Nat) (weight : F) : PhaseScores :=
  if weight ≤ 0 then s
  else if phase = PHASE_RAIN then { s with rain := s.rain.add weight }
  else if phase = PHASE_MIXED then { s with mixed := s.mixed.add weight }
  else if phase = PHASE_SNOW then { s with snow := s.snow.add weight }
  else s

/-- `ThermoPhaseEvidence` from ingest.rs. -/
structure ThermoPhaseEvidence where
  scores : PhaseScores
  phase : Nat
  confidence : F
  signal_count : Nat
  near_transition : Bool
  precip_flag_phase : Option Nat
  rqi : Option F

/-- `DualPolEvidence` from ingest.rs. -/
structure DualPolEvidence where
  phase : Nat
  confidence : F

/-- `PhaseResolution` from ingest.rs. -/
structure PhaseResolution where
  phase : Nat
  used_dual : Bool
  suppressed_dual : Bool
  suppressed_mixed : Bool
  forced_precip_snow : Bool

def MIXED_SELECTION_MARGIN : F := ⟨22, 100⟩
def MIXED_SELECTION_MARGIN_TRANSITION : F := ⟨8, 100⟩
def MIXED_COMPETING_RAIN_SNOW_MIN_SCORE : F := ⟨17, 10⟩
def MIXED_COMPETING_RAIN_SNOW_DELTA_MAX : F := ⟨14, 10⟩
def MIXED_COMPETING_PROMOTION_MIN_SCORE : F := ⟨24, 10⟩
def MIXED_COMPETING_PROMOTION_GAP_MAX : F := ⟨16, 10⟩
def MIXED_COMPETING_PROMOTION_MARGIN : F := ⟨14, 100⟩
def MIXED_DUAL_SUPPORT_CONFIDENCE_MIN : F := ⟨5, 10⟩

/-- `rank_phase_scores` from ingest.rs: the stable descending sort (by score)
of `[(RAIN, rain), (MIXED, mixed), (SNOW, snow)]`, written out explicitly.
With original positions i < j, stability of Rust `sort_by` puts i before j
exactly when `score_i ≥ score_j`. -/
def rank_phase_scores (s : PhaseScores) : (Nat × F) × (Nat × F) × (Nat × F) :=
  let a := s.rain
  let b := s.mixed
  let c := s.snow
  if b ≤ a then
    if c ≤ b then ((PHASE_RAIN, a), (PHASE_MIXED, b), (PHASE_SNOW, c))
    else if c ≤ a then ((PHASE_RAIN, a), (PHASE_SNOW, c), (PHASE_MIXED, b))
    else ((PHASE_SNOW, c), (PHASE_RAIN, a), (PHASE_MIXED, b))
  else
    if c ≤ a then ((PHASE_MIXED, b), (PHASE_RAIN, a), (PHASE_SNOW, c))
    else if c ≤ b then ((PHASE_MIXED, b), (PHASE_SNOW, c), (PHASE_RAIN, a))
    else ((PHASE_SNOW, c), (PHASE_MIXED, b), (PHASE_RAIN, a))

/-- `is_some_and` test for dual MIXED support in `resolve_phase_from_evidence`. -/
def dual_mixed_support_of (dual : Option DualPolEvidence) : Bool :=
  match dual with
  | some sample =>
      decide (sample.phase = PHASE_MIXED) &&
        decide (MIXED_DUAL_SUPPORT_CONFIDENCE_MIN ≤ sample.confidence)
  | none => false

/-- Dual-polarization injection block of `resolve_phase_from_evidence`
(ingest.rs lines 1258-1284): returns the adjusted scores together with the
`used_dual` and `suppressed_dual` flags. -/
def inject_dual_evidence (thermo : ThermoPhaseEvidence)
    (dual : Option DualPolEvidence) (use_aux_fallback : Bool) :
    PhaseScores × Bool × Bool :=
  match dual with
  | none => (thermo.scores, false, false)
  | some d =>
      let stale_weight : F := if use_aux_fallback then ⟨22, 100⟩ else ⟨58, 100⟩
      let rqi_weight : F :=
        match thermo.rqi with
        | some v => fclamp ((⟨35, 100⟩ : F).add ((⟨65, 100⟩ : F).mul v)) ⟨25, 100⟩ 1
        | none => ⟨85, 100⟩
      let w0 := (stale_weight.mul rqi_weight).mul d.confidence
      let w1 := if d.phase = PHASE_MIXED ∧ thermo.near_transition = false
        then w0.mul ⟨55, 100⟩ else w0
      let w2 := if d.phase = PHASE_RAIN ∧ thermo.phase = PHASE_SNOW ∧
          (⟨35, 100⟩ : F) ≤ thermo.confidence ∧
          thermo.precip_flag_phase = some PHASE_SNOW
        then w1.mul ⟨2, 10⟩ else w1
      if (⟨8, 100⟩ : F) ≤ w2 then
        (thermo.scores.addW d.phase (w2.mul ⟨22, 10⟩), true, false)
      else (thermo.scores, false, true)

/-- Mixed-competition promotion block of `resolve_phase_from_evidence`
(ingest.rs lines 1289-1303). -/
def promote_mixed_competition (thermo : ThermoPhaseEvidence)
    (dual_mixed_support : Bool) (scores : PhaseScores) : PhaseScores :=
  let rain_snow_promotion :=
    decide (MIXED_COMPETING_PROMOTION_MIN_SCORE ≤ scores.rain) &&
    decide (MIXED_COMPETING_PROMOTION_MIN_SCORE ≤ scores.snow) &&
    decide ((scores.rain.sub scores.snow).abs ≤ MIXED_COMPETING_RAIN_SNOW_DELTA_MAX)
  if rain_snow_promotion &&
      (thermo.near_transition || dual_mixed_support ||
        decide (2 ≤ thermo.signal_count)) then
    let rain_snow_peak := F.fmax scores.rain scores.snow
    let mixed_gap := rain_snow_peak.sub scores.mixed
    if 0 < mixed_gap ∧ mixed_gap ≤ MIXED_COMPETING_PROMOTION_GAP_MAX then
      scores.addW PHASE_MIXED (mixed_gap.add MIXED_COMPETING_PROMOTION_MARGIN)
    else scores
  else scores

/-- Mixed-selection-margin block of `resolve_phase_from_evidence` (ingest.rs
lines 1305-1325): select the top-ranked phase, demoting a top-ranked MIXED
that lacks the required margin over the best non-MIXED score. -/
def select_phase_with_margin (thermo : ThermoPhaseEvidence)
    (rain_snow_competing dual_mixed_support : Bool) (scores : PhaseScores) :
    Nat × Bool :=
  let ranked := rank_phase_scores scores
  if ranked.1.1 = PHASE_MIXED then
    let best_non_mixed :=
      if ranked.2.1.1 = PHASE_MIXED then ranked.2.2 else ranked.2.1
    let mixed_advantage := ranked.1.2.sub best_non_mixed.2
    let transition_like :=
      thermo.near_transition || rain_snow_competing || dual_mixed_support
    let required_margin := if transition_like then MIXED_SELECTION_MARGIN_TRANSITION
      else MIXED_SELECTION_MARGIN
    if mixed_advantage < required_margin then (best_non_mixed.1, true)
    else (ranked.1.1, false)
  else (ranked.1.1, false)

/-- Precipitation-flag snow override of `resolve_phase_from_evidence`
(ingest.rs lines 1327-1333). -/
def precip_snow_override (thermo : ThermoPhaseEvidence) (phase : Nat) :
    Nat × Bool :=
  if thermo.precip_flag_phase = some PHASE_SNOW ∧ phase ≠ PHASE_SNOW then
    if thermo.phase = PHASE_SNOW ∨ thermo.near_transition = true then
      (PHASE_SNOW, true)
    else (phase, false)
  else (phase, false)

/-- `resolve_phase_from_evidence` from ingest.rs, assembled from its blocks. -/
def resolve_phase_from_evidence (thermo : ThermoPhaseEvidence)
    (dual : Option DualPolEvidence) (use_aux_fallback : Bool) : PhaseResolution :=
  let dual_mixed_support := dual_mixed_support_of dual
  let inj := inject_dual_evidence thermo dual use_aux_fallback
  let rain_snow_competing :=
    decide (MIXED_COMPETING_RAIN_SNOW_MIN_SCORE ≤ inj.1.rain) &&
    decide (MIXED_COMPETING_RAIN_SNOW_MIN_SCORE ≤ inj.1.snow) &&
    decide ((inj.1.rain.sub inj.1.snow).abs ≤ MIXED_COMPETING_RAIN_SNOW_DELTA_MAX)
  let scores := promote_mixed_competition thermo dual_mixed_support inj.1
  let sel := select_phase_with_margin thermo rain_snow_competing
    dual_mixed_support scores
  let pf := precip_snow_override thermo sel.1
  { phase := pf.1,
    used_dual := inj.2.1,
    suppressed_dual := inj.2.2,
    suppressed_mixed := sel.2,
    forced_precip_snow := pf.2 }

theorem precip_snow_override_forces (thermo : ThermoPhaseEvidence) (p : Nat)
    (h1 : thermo.precip_flag_phase = some PHASE_SNOW)
    (h2 : thermo.phase = PHASE_SNOW) :
    (precip_snow_override thermo p).1 = PHASE_SNOW := by
  unfold precip_snow_override
  by_cases hp : p = PHASE_SNOW
  · simp [hp, h1]
  · simp [hp, h1, h2]

/-- C4: whenever the sampled precip-type flag resolves to snow and the thermo
evidence ranks snow on top, the resolved phase is snow, whatever dual-pol
evidence is supplied and whether or not the dual-pol stream is stale. -/
theorem resolve_phase_precip_snow_wins (thermo : ThermoPhaseEvidence)
    (dual : Option DualPolEvidence) (use_aux_fallback : Bool)
    (h1 : thermo.precip_flag_phase = some PHASE_SNOW)
    (h2 : thermo.phase = PHASE_SNOW) :
    (resolve_phase_from_evidence thermo dual use_aux_fallback).phase
      = PHASE_SNOW := by
  unfold resolve_phase_from_evidence
  exact precip_snow_override_forces thermo _ h1 h2

/-- Witness for C4: the S4-style evidence (precip flag snow, thermo top phase
snow) against strong dual-pol rain evidence still resolves to snow. -/
theorem resolve_phase_precip_snow_wins_witness :
    (({ scores := { rain := ⟨1, 1⟩, mixed := ⟨7, 10⟩, snow := ⟨42, 10⟩ },
        phase := PHASE_SNOW,
        confidence := ⟨1, 2⟩,
        signal_count := 1,
        near_transition := false,
        precip_flag_phase := some PHASE_SNOW,
        rqi := none } : ThermoPhaseEvidence).precip_flag_phase
      = some PHASE_SNOW) ∧
    (resolve_phase_from_evidence
      { scores := { rain := ⟨1, 1⟩, mixed := ⟨7, 10⟩, snow := ⟨42, 10⟩ },
        phase := PHASE_SNOW,
        confidence := ⟨1, 2⟩,
        signal_count := 1,
        near_transition := false,
        precip_flag_phase := some PHASE_SNOW,
        rqi := none }
      (some { phase := PHASE_RAIN, confidence := ⟨82, 100⟩ })
      false).phase = PHASE_SNOW :=
  ⟨rfl,
   resolve_phase_precip_snow_wins
    { scores := { rain := ⟨1, 1⟩, mixed := ⟨7, 10⟩, snow := ⟨42, 10⟩ },
      phase := PHASE_SNOW,
      confidence := ⟨1, 2⟩,
      signal_count := 1,
      near_transition := false,
      precip_flag_phase := some PHASE_SNOW,
      rqi := none }
    (some { phase := PHASE_RAIN, confidence := ⟨82, 100⟩ })
    false rfl rfl⟩

/-! ## Per-level transition-edge promotion
(src/services/mrms-rs/src/ingest.rs, `promote_mixed_transition_edges`).
The `HashMap<u32, usize>` from grid position to record index is modelled by a
fold in insertion order (later records overwrite earlier ones, as in the
source). -/

/-- `LevelPhaseVoxel` from ingest.rs. -/
structure LevelPhaseVoxel where
  row : Nat
  col : Nat
  dbz_tenths : Int
  phase : Nat
  transition_candidate : Bool
  deriving DecidableEq, Repr

instance : Inhabited LevelPhaseVoxel := ⟨⟨0, 0, 0, 0, false⟩⟩

/-- The eight neighbor offsets scanned by the source's double loop
(`row_delta`, `col_delta` in `-1..=1` without `(0, 0)`). -/
def NEIGHBOR_DELTAS : List (Int × Int) :=
  [(-1, -1), (-1, 0), (-1, 1), (0, -1), (0, 1), (1, -1), (1, 0), (1, 1)]

/-- The `position_to_index` map: for each record in order, insert
`row * grid_nx + col ↦ index` (later records overwrite earlier ones).
Looking up a key returns the last inserted index for it. -/
def position_lookup (records : List LevelPhaseVoxel) (nx key : Nat) : Option Nat :=
  (List.range records.length).foldl
    (fun acc idx =>
      if (records.getD idx default).row * nx + (records.getD idx default).col = key
      then some idx else acc) none

/-- Neighbor scan of `promote_mixed_transition_edges` for one record:
some 8-connected in-grid neighbor position maps to a record of the opposite
phase. -/
def has_opposite_neighbor (records : List LevelPhaseVoxel) (nx ny : Nat)
    (r : LevelPhaseVoxel) : Bool :=
  let opposite := if r.phase = PHASE_RAIN then PHASE_SNOW else PHASE_RAIN
  NEIGHBOR_DELTAS.any (fun d =>
    let nr : Int := (r.row : Int) + d.1
    let nc : Int := (r.col : Int) + d.2
    if nr < 0 ∨ nc < 0 ∨ (ny : Int) ≤ nr ∨ (nx : Int) ≤ nc then false
    else
      match position_lookup records nx (nr.toNat * nx + nc.toNat) with
      | some j => decide ((records.getD j default).phase = opposite)
      | none => false)

/-- Promotion test of `promote_mixed_transition_edges` for the record at
`idx`: a transition candidate of phase rain or snow with an opposite-phase
8-connected neighbor (judged against the pre-pass phases). -/
def voxel_promoted (records : List LevelPhaseVoxel) (nx ny idx : Nat) : Bool :=
  let r := records.getD idx default
  r.transition_candidate &&
    (decide (r.phase = PHASE_RAIN) || decide (r.phase = PHASE_SNOW)) &&
    has_opposite_neighbor records nx ny r

/-- `promote_mixed_transition_edges` from ingest.rs: collect the indices to
promote against the pre-pass phases, then set each of them to MIXED;
returns the new records and the promotion count. -/
def promote_mixed_transition_edges (records : List LevelPhaseVoxel)
    (nx ny : Nat) : List LevelPhaseVoxel × Nat :=
  if records.isEmpty ∨ nx = 0 ∨ ny = 0 then (records, 0)
  else
    ((List.range records.length).map (fun idx =>
        if voxel_promoted records nx ny idx then
          { records.getD idx default with phase := PHASE_MIXED }
        else records.getD idx default),
     ((List.range records.length).filter (fun idx =>
        voxel_promoted records nx ny idx)).length)

theorem fold_lastP_origin (P : Nat → Prop) [DecidablePred P] :
    ∀ (l : List Nat) (acc : Option Nat) (v : Nat),
      l.foldl (fun a i => if P i then some i else a) acc = some v →
      (v ∈ l ∧ P v) ∨ acc = some v := by
  intro l
  induction l with
  | nil => intro acc v h; exact Or.inr h
  | cons x xs ih =>
      intro acc v h
      rcases ih _ v h with ⟨hmem, hp⟩ | hacc
      · exact Or.inl ⟨List.mem_cons_of_mem x hmem, hp⟩
      · dsimp only at hacc
        by_cases hx : P x
        · rw [if_pos hx] at hacc
          obtain rfl := Option.some.inj hacc
          exact Or.inl ⟨List.mem_cons_self x xs, hx⟩
        · rw [if_neg hx] at hacc
          exact Or.inr hacc

theorem fold_lastP_isSome (P : Nat → Prop) [DecidablePred P] :
    ∀ (l : List Nat) (acc : Option Nat),
      ((∃ i ∈ l, P i) ∨ acc.isSome) →
      (l.foldl (fun a i => if P i then some i else a) acc).isSome := by
  intro l
  induction l with
  | nil =>
      intro acc h
      rcases h with ⟨i, hi, _⟩ | h
      · exact absurd hi (List.not_mem_nil i)
      · exact h
  | cons x xs ih =>
      intro acc h
      rcases h with ⟨i, hi, hp⟩ | hsome
      · rcases List.mem_cons.mp hi with rfl | hmem
        · exact ih _ (Or.inr (by simp [hp]))
        · exact ih _ (Or.inl ⟨i, hmem, hp⟩)
      · apply ih
        right
        by_cases hx : P x <;> simp [hx, hsome]

theorem position_lookup_some (records : List LevelPhaseVoxel) (nx key j : Nat)
    (h : position_lookup records nx key = some j) :
    j < records.length ∧
      (records.getD j default).row * nx + (records.getD j default).col = key := by
  unfold position_lookup at h
  rcases fold_lastP_origin
      (fun idx => (records.getD idx default).row * nx
        + (records.getD idx default).col = key) _ _ _ h with ⟨hmem, hp⟩ | habs
  · exact ⟨List.mem_range.mp hmem, hp⟩
  · exact absurd habs (by simp)

theorem position_lookup_isSome (records : List LevelPhaseVoxel) (nx key j : Nat)
    (hj : j < records.length)
    (hkey : (records.getD j default).row * nx + (records.getD j default).col = key) :
    (position_lookup records nx key).isSome := by
  unfold position_lookup
  exact fold_lastP_isSome
    (fun idx => (records.getD idx default).row * nx
      + (records.getD idx default).col = key)
    _ _ (Or.inl ⟨j, List.mem_range.mpr hj, hkey⟩)

theorem grid_key_inj {nx a b c d : Nat} (hb : b < nx) (hd : d < nx)
    (h : a * nx + b = c * nx + d) : a = c ∧ b = d := by
  have hx : 0 < nx := Nat.lt_of_le_of_lt (Nat.zero_le b) hb
  have ha : (a * nx + b) / nx = a := by
    rw [Nat.add_comm, Nat.add_mul_div_right _ _ hx, Nat.div_eq_of_lt hb]
    omega
  have hc : (c * nx + d) / nx = c := by
    rw [Nat.add_comm, Nat.add_mul_div_right _ _ hx, Nat.div_eq_of_lt hd]
    omega
  have hac : a = c := by rw [← ha, ← hc, h]
  refine ⟨hac, ?_⟩
  rw [hac] at h
  omega

theorem promote_not_degenerate {records : List LevelPhaseVoxel} {nx ny : Nat}
    (hne : records ≠ []) (hnx : 0 < nx) (hny : 0 < ny) :
    ¬(records.isEmpty ∨ nx = 0 ∨ ny = 0) := by
  simp [List.isEmpty_iff, hne]
  omega

theorem promote_length (records : List LevelPhaseVoxel) (nx ny : Nat) :
    (promote_mixed_transition_edges records nx ny).1.length = records.length := by
  unfold promote_mixed_transition_edges
  by_cases hdeg : records.isEmpty ∨ nx = 0 ∨ ny = 0
  · rw [if_pos hdeg]
  · rw [if_neg hdeg]
    simp

theorem promote_getD (records : List LevelPhaseVoxel) (nx ny idx : Nat)
    (h : idx < records.length)
    (hdeg : ¬(records.isEmpty ∨ nx = 0 ∨ ny = 0)) :
    (promote_mixed_transition_edges records nx ny).1.getD idx default
      = (if voxel_promoted records nx ny idx then
          { records.getD idx default with phase := PHASE_MIXED }
        else records.getD idx default) := by
  unfold promote_mixed_transition_edges
  rw [if_neg hdeg]
  have hlen : idx < ((List.range records.length).map (fun i =>
      if voxel_promoted records nx ny i then
        { records.getD i default with phase := PHASE_MIXED }
      else records.getD i default)).length := by
    simpa using h
  rw [List.getD_eq_getElem _ _ hlen]
  simp [List.getElem_map, List.getElem_range]

theorem promote_getD_out (records : List LevelPhaseVoxel) (nx ny idx : Nat)
    (h : ¬ idx < records.length) :
    (promote_mixed_transition_edges records nx ny).1.getD idx default = default := by
  apply List.getD_eq_default
  rw [promote_length]
  omega

theorem getD_mem_of_lt (records : List LevelPhaseVoxel) (k : Nat)
    (hk : k < records.length) : records.getD k default ∈ records := by
  rw [List.getD_eq_getElem _ _ hk]
  exact List.getElem_mem hk

theorem voxel_promoted_of_neighbor (records : List LevelPhaseVoxel)
    (nx ny i j : Nat)
    (hdist : ∀ a b, a < records.length → b < records.length →
      (records.getD a default).row = (records.getD b default).row →
      (records.getD a default).col = (records.getD b default).col → a = b)
    (hgrid : ∀ r ∈ records, r.row < ny ∧ r.col < nx)
    (_hi : i < records.length) (hj : j < records.length)
    (hcand : (records.getD i default).transition_candidate = true)
    (hphase : ((records.getD i default).phase = PHASE_RAIN ∧
        (records.getD j default).phase = PHASE_SNOW) ∨
      ((records.getD i default).phase = PHASE_SNOW ∧
        (records.getD j default).phase = PHASE_RAIN))
    (hrow1 : (records.getD i default).row ≤ (records.getD j default).row + 1)
    (hrow2 : (records.getD j default).row ≤ (records.getD i default).row + 1)
    (hcol1 : (records.getD i default).col ≤ (records.getD j default).col + 1)
    (hcol2 : (records.getD j default).col ≤ (records.getD i default).col + 1)
    (hne : ¬((records.getD i default).row = (records.getD j default).row ∧
      (records.getD i default).col = (records.getD j default).col)) :
    voxel_promoted records nx ny i = true := by
  have hgridj := hgrid _ (getD_mem_of_lt records j hj)
  have hneigh : has_opposite_neighbor records nx ny (records.getD i default)
      = true := by
    unfold has_opposite_neighbor
    rw [List.any_eq_true]
    refine ⟨(((records.getD j default).row : Int) - (records.getD i default).row,
        ((records.getD j default).col : Int) - (records.getD i default).col),
      ?_, ?_⟩
    · have hdr : ((records.getD j default).row : Int)
          - (records.getD i default).row = -1 ∨
        ((records.getD j default).row : Int) - (records.getD i default).row = 0 ∨
        ((records.getD j default).row : Int) - (records.getD i default).row = 1 := by
        omega
      have hdc : ((records.getD j default).col : Int)
          - (records.getD i default).col = -1 ∨
        ((records.getD j default).col : Int) - (records.getD i default).col = 0 ∨
        ((records.getD j default).col : Int) - (records.getD i default).col = 1 := by
        omega
      rcases hdr with h1 | h1 | h1 <;> rcases hdc with h2 | h2 | h2 <;>
        rw [h1, h2] <;>
        first
          | exact absurd ⟨by omega, by omega⟩ hne
          | decide
    · have hb1 : ¬((((records.getD i default).row : Int)
          + (((records.getD j default).row : Int)
            - (records.getD i default).row)) < 0 ∨
        (((records.getD i default).col : Int)
          + (((records.getD j default).col : Int)
            - (records.getD i default).col)) < 0 ∨
        (ny : Int) ≤ (((records.getD i default).row : Int)
          + (((records.getD j default).row : Int)
            - (records.getD i default).row)) ∨
        (nx : Int) ≤ (((records.getD i default).col : Int)
          + (((records.getD j default).col : Int)
            - (records.getD i default).col))) := by
        push_neg
        refine ⟨by omega, by omega, by omega, by omega⟩
      simp only [hb1, if_false, if_neg hb1]
      have hr : (((records.getD i default).row : Int)
          + (((records.getD j default).row : Int)
            - (records.getD i default).row)).toNat
          = (records.getD j default).row := by omega
      have hc : (((records.getD i default).col : Int)
          + (((records.getD j default).col : Int)
            - (records.getD i default).col)).toNat
          = (records.getD j default).col := by omega
      rw [hr, hc]
      have hsome := position_lookup_isSome records nx
        ((records.getD j default).row * nx + (records.getD j default).col) j hj rfl
      obtain ⟨j2, hj2⟩ := Option.isSome_iff_exists.mp hsome
      obtain ⟨hj2len, hj2key⟩ := position_lookup_some records nx _ j2 hj2
      have hgridj2 := hgrid _ (getD_mem_of_lt records j2 hj2len)
      obtain ⟨hrowe, hcole⟩ := grid_key_inj hgridj2.2 hgridj.2 hj2key
      have hj2j : j2 = j := hdist j2 j hj2len hj hrowe hcole
      subst hj2j
      rw [hj2]
      show decide ((records.getD j2 default).phase
          = if (records.getD i default).phase = PHASE_RAIN then PHASE_SNOW
            else PHASE_RAIN) = true
      rcases hphase with ⟨hpi, hpj⟩ | ⟨hpi, hpj⟩
      · rw [hpi, hpj]; decide
      · rw [hpi, hpj]; decide
  unfold voxel_promoted
  simp only [Bool.and_eq_true, decide_eq_true_eq, Bool.or_eq_true]
  rcases hphase with ⟨hpi, _⟩ | ⟨hpi, _⟩
  · exact ⟨⟨hcand, Or.inl hpi⟩, hneigh⟩
  · exact ⟨⟨hcand, Or.inr hpi⟩, hneigh⟩

theorem position_lookup_promote (records : List LevelPhaseVoxel) (nx ny : Nat)
    (hdeg : ¬(records.isEmpty ∨ nx = 0 ∨ ny = 0)) (key : Nat) :
    position_lookup (promote_mixed_transition_edges records nx ny).1 nx key
      = position_lookup records nx key := by
  unfold position_lookup
  rw [promote_length]
  apply List.foldl_ext
  intro acc idx hidx
  have hlt : idx < records.length := List.mem_range.mp hidx
  rw [promote_getD records nx ny idx hlt hdeg]
  by_cases hp : voxel_promoted records nx ny idx = true <;> simp [hp]

theorem voxel_promoted_promote_false (records : List LevelPhaseVoxel)
    (nx ny idx : Nat) (hdeg : ¬(records.isEmpty ∨ nx = 0 ∨ ny = 0)) :
    voxel_promoted (promote_mixed_transition_edges records nx ny).1 nx ny idx
      = false := by
  by_contra hcon
  rw [Bool.not_eq_false] at hcon
  unfold voxel_promoted at hcon
  simp only [Bool.and_eq_true, decide_eq_true_eq, Bool.or_eq_true] at hcon
  obtain ⟨⟨hcand, hphase⟩, hneigh⟩ := hcon
  by_cases hlt : idx < records.length
  case neg =>
    rw [promote_getD_out records nx ny idx hlt] at hcand
    exact absurd hcand (by decide)
  case pos =>
  rw [promote_getD records nx ny idx hlt hdeg] at hcand hphase hneigh
  have hnp : voxel_promoted records nx ny idx = false := by
    by_contra hp
    rw [Bool.not_eq_false] at hp
    rw [if_pos hp] at hphase
    simp [PHASE_RAIN, PHASE_MIXED, PHASE_SNOW] at hphase
  rw [if_neg (by simp [hnp])] at hcand hphase hneigh
  have hneigh2 : has_opposite_neighbor records nx ny
      (records.getD idx default) = true := by
    unfold has_opposite_neighbor at hneigh ⊢
    rw [List.any_eq_true] at hneigh ⊢
    obtain ⟨d, hd, hbody⟩ := hneigh
    refine ⟨d, hd, ?_⟩
    by_cases hbound : (((records.getD idx default).row : Int) + d.1) < 0 ∨
        (((records.getD idx default).col : Int) + d.2) < 0 ∨
        (ny : Int) ≤ (((records.getD idx default).row : Int) + d.1) ∨
        (nx : Int) ≤ (((records.getD idx default).col : Int) + d.2)
    case pos =>
      rw [if_pos hbound] at hbody
      exact absurd hbody (by decide)
    case neg =>
    rw [if_neg hbound] at hbody ⊢
    rw [position_lookup_promote records nx ny hdeg] at hbody
    obtain ⟨j, hlook⟩ : ∃ j, position_lookup records nx
        ((((records.getD idx default).row : Int) + d.1).toNat * nx
          + ((((records.getD idx default).col : Int) + d.2).toNat)) = some j :=
      Option.ne_none_iff_exists'.mp (fun hnone => by
        rw [hnone] at hbody
        simp at hbody)
    rw [hlook] at hbody ⊢
    have hbody2 : decide
        (((promote_mixed_transition_edges records nx ny).1.getD j default).phase
          = if (records.getD idx default).phase = PHASE_RAIN then PHASE_SNOW
            else PHASE_RAIN) = true := hbody
    show decide ((records.getD j default).phase
        = if (records.getD idx default).phase = PHASE_RAIN then PHASE_SNOW
          else PHASE_RAIN) = true
    obtain ⟨hjlen, _⟩ := position_lookup_some records nx _ j hlook
    rw [promote_getD records nx ny j hjlen hdeg] at hbody2
    by_cases hpj : voxel_promoted records nx ny j = true
    · rw [if_pos hpj] at hbody2
      simp only [decide_eq_true_eq] at hbody2
      rcases hphase with hri | hri <;> rw [hri] at hbody2 <;>
        simp [PHASE_RAIN, PHASE_MIXED, PHASE_SNOW] at hbody2
    · rw [if_neg hpj] at hbody2
      exact hbody2
  have hptrue : voxel_promoted records nx ny idx = true := by
    unfold voxel_promoted
    simp only [Bool.and_eq_true, decide_eq_true_eq, Bool.or_eq_true]
    exact ⟨⟨hcand, hphase⟩, hneigh2⟩
  rw [hptrue] at hnp
  exact absurd hnp (by decide)

theorem promote_mixed_idempotent (records : List LevelPhaseVoxel) (nx ny : Nat) :
    promote_mixed_transition_edges
        (promote_mixed_transition_edges records nx ny).1 nx ny
      = ((promote_mixed_transition_edges records nx ny).1, 0) := by
  by_cases hdeg : records.isEmpty ∨ nx = 0 ∨ ny = 0
  · have h1 : promote_mixed_transition_edges records nx ny = (records, 0) := by
      unfold promote_mixed_transition_edges
      rw [if_pos hdeg]
    rw [h1]
    unfold promote_mixed_transition_edges
    rw [if_pos hdeg]
  · have hlen : (promote_mixed_transition_edges records nx ny).1.length
        = records.length := promote_length records nx ny
    have hdeg2 : ¬((promote_mixed_transition_edges records nx ny).1.isEmpty ∨
        nx = 0 ∨ ny = 0) := by
      intro hcase
      rcases hcase with hempty | hnx | hny
      · rw [List.isEmpty_iff] at hempty
        have hlen2 := hlen
        rw [hempty] at hlen2
        exact hdeg (Or.inl (by
          rw [List.isEmpty_iff]
          exact List.eq_nil_of_length_eq_zero hlen2.symm))
      · exact hdeg (Or.inr (Or.inl hnx))
      · exact hdeg (Or.inr (Or.inr hny))
    have hfalse : ∀ idx, voxel_promoted
        (promote_mixed_transition_edges records nx ny).1 nx ny idx = false :=
      fun idx => voxel_promoted_promote_false records nx ny idx hdeg
    conv_lhs => rw [promote_mixed_transition_edges]
    rw [if_neg hdeg2]
    refine Prod.ext ?_ ?_
    · show (List.range (promote_mixed_transition_edges records nx ny).1.length).map _
        = (promote_mixed_transition_edges records nx ny).1
      apply List.ext_getElem
      · simp
      · intro n h1 h2
        rw [List.getElem_map, List.getElem_range]
        have hn : n < (promote_mixed_transition_edges records nx ny).1.length := by
          simpa using h2
        rw [hfalse, if_neg (by decide)]
        exact List.getD_eq_getElem _ _ hn
    · show (List.filter _ (List.range _)).length = 0
      rw [List.filter_eq_nil_iff.mpr (fun a _ => by simp [hfalse a])]
      rfl

/-- C5: in the per-level post-pass, every transition-candidate rain voxel
with an 8-connected snow neighbor (and symmetrically every transition-candidate
snow voxel with an 8-connected rain neighbor, judged against the pre-pass
phases) is promoted to MIXED; the S5 two-voxel level promotes both voxels to
MIXED; and applying the pass a second time changes nothing and promotes zero
voxels. -/
theorem promote_mixed_transition_edges_spec :
    (∀ (records : List LevelPhaseVoxel) (nx ny i j : Nat),
      (∀ a < records.length, ∀ b < records.length,
        (records.getD a default).row = (records.getD b default).row →
        (records.getD a default).col = (records.getD b default).col → a = b) →
      (∀ r ∈ records, r.row < ny ∧ r.col < nx) →
      i < records.length → j < records.length →
      (records.getD i default).transition_candidate = true →
      (((records.getD i default).phase = PHASE_RAIN ∧
          (records.getD j default).phase = PHASE_SNOW) ∨
        ((records.getD i default).phase = PHASE_SNOW ∧
          (records.getD j default).phase = PHASE_RAIN)) →
      (records.getD i default).row ≤ (records.getD j default).row + 1 →
      (records.getD j default).row ≤ (records.getD i default).row + 1 →
      (records.getD i default).col ≤ (records.getD j default).col + 1 →
      (records.getD j default).col ≤ (records.getD i default).col + 1 →
      ¬((records.getD i default).row = (records.getD j default).row ∧
        (records.getD i default).col = (records.getD j default).col) →
      ((promote_mixed_transition_edges records nx ny).1.getD i default).phase
        = PHASE_MIXED) ∧
    (promote_mixed_transition_edges
        [⟨10, 10, 180, PHASE_RAIN, true⟩, ⟨10, 11, 170, PHASE_SNOW, true⟩]
        200 200
      = ([⟨10, 10, 180, PHASE_MIXED, true⟩, ⟨10, 11, 170, PHASE_MIXED, true⟩],
         2)) ∧
    (∀ (records : List LevelPhaseVoxel) (nx ny : Nat),
      promote_mixed_transition_edges
          (promote_mixed_transition_edges records nx ny).1 nx ny
        = ((promote_mixed_transition_edges records nx ny).1, 0)) := by
  refine ⟨?_, by decide, promote_mixed_idempotent⟩
  intro records nx ny i j hdist hgrid hi hj hcand hphase hr1 hr2 hc1 hc2 hne
  have hgridi := hgrid _ (getD_mem_of_lt records i hi)
  have hdeg : ¬(records.isEmpty ∨ nx = 0 ∨ ny = 0) := by
    intro hcase
    rcases hcase with hempty | hnx | hny
    · rw [List.isEmpty_iff] at hempty
      rw [hempty] at hi
      exact absurd hi (by simp)
    · omega
    · omega
  have hp := voxel_promoted_of_neighbor records nx ny i j
    (fun a b ha hb => hdist a ha b hb) hgrid hi hj hcand hphase hr1 hr2 hc1 hc2 hne
  rw [promote_getD records nx ny i hi hdeg, if_pos hp]

/-- Witness applying the C5 theorem on the S5 level at indices 0 and 1. -/
theorem promote_mixed_transition_edges_spec_witness :
    ((promote_mixed_transition_edges
        [⟨10, 10, 180, PHASE_RAIN, true⟩, ⟨10, 11, 170, PHASE_SNOW, true⟩]
        200 200).1.getD 0 default).phase = PHASE_MIXED :=
  promote_mixed_transition_edges_spec.1
    [⟨10, 10, 180, PHASE_RAIN, true⟩, ⟨10, 11, 170, PHASE_SNOW, true⟩]
    200 200 0 1
    (by decide) (by decide) (by decide) (by decide) (by decide)
    (by decide) (by decide) (by decide) (by decide) (by decide) (by decide)

/-! ## binCraft traffic decoder (src/services/runtime-rs/src/traffic_api.rs).
The decoder operates on the zstd-decompressed buffer, modelled as a list of
byte values.  `HashMap<String, TrafficAircraft>` is modelled as an association
list in insertion order. -/

def BINCRAFT_MIN_STRIDE_BYTES : Nat := 112
def BINCRAFT_MAX_STRIDE_BYTES : Nat := 256
def BINCRAFT_S32_SEEN_VERSION : Nat := 20240218

/-- `read_u16_le` from traffic_api.rs (`None` when out of range). -/
def read_u16_le (data : List Nat) (off : Nat) : Option Nat :=
  match data.get? off, data.get? (off + 1) with
  | some b0, some b1 => some (b0 + 256 * b1)
  | _, _ => none

/-- `read_i16_le` from traffic_api.rs. -/
def read_i16_le (data : List Nat) (off : Nat) : Option Int :=
  (read_u16_le data off).map (fun v =>
    if v < 32768 then (v : Int) else (v : Int) - 65536)

/-- `read_u32_le` from traffic_api.rs. -/
def read_u32_le (data : List Nat) (off : Nat) : Option Nat :=
  match data.get? off, data.get? (off + 1), data.get? (off + 2),
      data.get? (off + 3) with
  | some b0, some b1, some b2, some b3 =>
      some (b0 + 256 * b1 + 65536 * b2 + 16777216 * b3)
  | _, _, _, _ => none

/-- `read_i32_le` from traffic_api.rs. -/
def read_i32_le (data : List Nat) (off : Nat) : Option Int :=
  (read_u32_le data off).map (fun v =>
    if v < 2147483648 then (v : Int) else (v : Int) - 4294967296)

/-- `TrafficAircraft` from traffic_api.rs. -/
structure TrafficAircraft where
  hex : String
  flight : Option String
  lat : F
  lon : F
  is_on_ground : Bool
  altitude_feet : Option F
  ground_speed_kt : Option F
  track_deg : Option F
  last_seen_seconds : Option F
  deriving Repr, DecidableEq

/-- One lower-case hex digit. -/
def hexChar (n : Nat) : Char :=
  if n < 10 then Char.ofNat (48 + n) else Char.ofNat (87 + n)

/-- Rust `format!("{:06x}")` for values below `16^6` (always the case for a
24-bit masked hex base): six zero-padded lower-case hex digits. -/
def hex6 (n : Nat) : String :=
  ⟨[hexChar (n / 1048576 % 16), hexChar (n / 65536 % 16),
    hexChar (n / 4096 % 16), hexChar (n / 256 % 16),
    hexChar (n / 16 % 16), hexChar (n % 16)]⟩

/-- `normalize_lat_value` from traffic_api.rs. -/
def normalize_lat_value (v : F) : Option F :=
  if -(90 : F) ≤ v ∧ v ≤ 90 then some v else none

/-- `normalize_lon_value` from traffic_api.rs. -/
def normalize_lon_value (v : F) : Option F :=
  if -(180 : F) ≤ v ∧ v ≤ 180 then some v else none

/-- `normalize_speed_kt` from traffic_api.rs (the non-finite guard cannot
fire in the exact model). -/
def normalize_speed_kt (v : F) : Option F :=
  if (0 : F) ≤ v ∧ v ≤ 1800 then some v else none

/-- `normalize_seen_seconds_value` from traffic_api.rs. -/
def normalize_seen_seconds_value (v : F) : Option F :=
  if (0 : F) ≤ v ∧ v ≤ 86400 then some v else none

/-- `normalize_altitude_feet_value` from traffic_api.rs. -/
def normalize_altitude_feet_value (v : F) : Option F :=
  some (fclamp v (-(2000 : F)) 70000)

/-- `normalize_heading_value` from traffic_api.rs. -/
def normalize_heading_value (v : F) : Option F :=
  let wrapped := tRem v 360
  some (if wrapped < 0 then wrapped.add 360 else wrapped)

/-- ASCII whitespace test (callsigns are ASCII, so Rust `str::trim` agrees). -/
def isAsciiSpace (c : Char) : Bool :=
  c.toNat = 32 ∨ c.toNat = 9 ∨ c.toNat = 10 ∨ c.toNat = 13

/-- Trim whitespace from both ends of a character list. -/
def trimChars (cs : List Char) : List Char :=
  ((cs.dropWhile isAsciiSpace).reverse.dropWhile isAsciiSpace).reverse

/-- `normalize_callsign` from traffic_api.rs. -/
def normalize_callsign (s : List Char) : Option String :=
  let trimmed := trimChars s
  if trimmed.isEmpty then none else some ⟨trimmed⟩

/-- Byte collection of `decode_flight`: up to `n` bytes, stopping at a zero
byte, failing (`?`) when the slice runs out first. -/
def collect_flight_bytes : List Nat → Nat → Option (List Char)
  | _, 0 => some []
  | [], _ + 1 => none
  | code :: rest, n + 1 =>
      if code = 0 then some []
      else (collect_flight_bytes rest n).map (fun cs => Char.ofNat code :: cs)

/-- `decode_flight` from traffic_api.rs: bytes 78..86, zero-terminated,
decoded as characters (callsigns are ASCII, so lossy UTF-8 decoding is the
identity) and trimmed. -/
def decode_flight (u8 : List Nat) : Option String :=
  (collect_flight_bytes (u8.drop 78) 8).bind (fun cs => normalize_callsign cs)

/-- Last-seen selection of `decode_bincraft_aircraft` (traffic_api.rs lines
352-365): with a new enough version the per-record seen fields are i32 LE at
offsets 4 and 108 in tenths of seconds, otherwise u16 LE at offsets 4 and 6;
the position-seen value is preferred and the plain seen value is the
fallback, each gated by the `[0, 86400]` range check. -/
def bincraft_last_seen (version : Nat) (u8 : List Nat) : Option F :=
  let seen_seconds :=
    if BINCRAFT_S32_SEEN_VERSION ≤ version then
      (read_i32_le u8 4).map (fun v => (F.ofInt v).div 10)
    else
      (read_u16_le u8 6).map (fun v => (F.ofInt (v : Int)).div 10)
  let seen_pos_seconds :=
    if BINCRAFT_S32_SEEN_VERSION ≤ version then
      (read_i32_le u8 108).map (fun v => (F.ofInt v).div 10)
    else
      (read_u16_le u8 4).map (fun v => (F.ofInt (v : Int)).div 10)
  match seen_pos_seconds.bind normalize_seen_seconds_value with
  | some v => some v
  | none => seen_seconds.bind normalize_seen_seconds_value

/-- Record-decoding body of the loop in `decode_bincraft_aircraft`
(traffic_api.rs lines 280-377); `none` models every `continue`. -/
def decode_bincraft_record (version : Nat) (u8 : List Nat) :
    Option TrafficAircraft :=
  let validity73 := u8.getD 73 0
  if validity73 % 128 / 64 = 0 then none
  else
    let lat? := (read_i32_le u8 12).bind
      (fun v => normalize_lat_value ((F.ofInt v).div ⟨1000000, 1⟩))
    let lon? := (read_i32_le u8 8).bind
      (fun v => normalize_lon_value ((F.ofInt v).div ⟨1000000, 1⟩))
    match lat?, lon? with
    | some lat, some lon =>
        let raw_hex : Nat := (((read_i32_le u8 0).getD 0).emod 4294967296).toNat
        let hex_base := raw_hex % 16777216
        if hex_base = 0 then none
        else
          let is_temporary := raw_hex / 16777216 % 2 = 1
          let hex := if is_temporary then "~" ++ hex6 hex_base else hex6 hex_base
          let altitude_feet :=
            if validity73 % 64 / 32 = 1 then
              normalize_altitude_feet_value
                (F.ofInt (25 * (read_i16_le u8 22).getD 0))
            else if validity73 % 32 / 16 = 1 then
              normalize_altitude_feet_value
                (F.ofInt (25 * (read_i16_le u8 20).getD 0))
            else none
          let ground_speed_kt :=
            if 128 ≤ validity73 % 256 then
              normalize_speed_kt ((F.ofInt ((read_i16_le u8 34).getD 0)).div 10)
            else none
          let track_deg :=
            if u8.getD 74 0 % 16 / 8 = 1 then
              normalize_heading_value ((F.ofInt ((read_i16_le u8 40).getD 0)).div 90)
            else none
          let flight :=
            if validity73 % 16 / 8 = 1 then decode_flight u8 else none
          let airground := u8.getD 68 0 % 16
          some
            { hex := hex,
              flight := flight,
              lat := lat,
              lon := lon,
              is_on_ground := airground = 1,
              altitude_feet := altitude_feet,
              ground_speed_kt := ground_speed_kt,
              track_deg := track_deg,
              last_seen_seconds := bincraft_last_seen version u8 }
    | _, _ => none

/-- Freshness comparison used by the per-hex dedupe: a missing
`last_seen_seconds` counts as `f64::INFINITY`. -/
def seen_lt (a b : Option F) : Bool :=
  match a, b with
  | some x, some y => decide (x < y)
  | some _, none => true
  | none, _ => false

/-- The `by_hex` insertion of `decode_bincraft_aircraft`: keep the record
with the strictly smaller `last_seen_seconds`. -/
def bincraft_insert (m : List (String × TrafficAircraft))
    (a : TrafficAircraft) : List (String × TrafficAircraft) :=
  if m.any (fun e => e.1 = a.hex) then
    if seen_lt a.last_seen_seconds
        (((m.find? (fun e => decide (e.1 = a.hex))).map
          (fun e => e.2.last_seen_seconds)).getD none) then
      m.map (fun e => if e.1 = a.hex then (a.hex, a) else e)
    else m
  else m ++ [(a.hex, a)]

/-- The record loop of `decode_bincraft_aircraft`: start at offset `stride`,
advance by `stride` while `offset + stride ≤ max_offset`.  Fuel bounds the
iteration count (any fuel at least the number of records gives the same
result; the caller passes the buffer length, and each step advances by
`stride ≥ 112`). -/
def bincraft_collect (decoded : List Nat) (stride version max_offset : Nat) :
    Nat → Nat → List (String × TrafficAircraft) →
    List (String × TrafficAircraft)
  | 0, _, by_hex => by_hex
  | fuel + 1, offset, by_hex =>
      if offset + stride ≤ max_offset then
        let record_bytes := (decoded.drop offset).take stride
        let by_hex2 :=
          match decode_bincraft_record version record_bytes with
          | some a => bincraft_insert by_hex a
          | none => by_hex
        bincraft_collect decoded stride version max_offset fuel
          (offset + stride) by_hex2
      else by_hex

/-- `decode_bincraft_aircraft` from traffic_api.rs, applied to the
zstd-decompressed buffer. -/
def decode_bincraft_aircraft (decoded : List Nat) :
    Except String (List TrafficAircraft) :=
  if decoded.length < 44 then
    Except.error "binCraft payload is too small."
  else
    let stride := (read_u32_le decoded 8).getD 0
    if stride < BINCRAFT_MIN_STRIDE_BYTES ∨ BINCRAFT_MAX_STRIDE_BYTES < stride ∨
        stride % 4 ≠ 0 then
      Except.error "Unexpected binCraft stride"
    else
      let version := (read_u32_le decoded 40).getD 0
      let max_offset := decoded.length - decoded.length % stride
      Except.ok
        ((bincraft_collect decoded stride version max_offset decoded.length
          stride []).map Prod.snd)

/-- Test-harness helper: a byte buffer of the given length whose bytes are
zero except at the listed positions. -/
def bytesWith (len : Nat) (assigns : List (Nat × Nat)) : List Nat :=
  (List.range len).map (fun i =>
    (((assigns.find? (fun p => p.1 = i)).map Prod.snd).getD 0))

/-- The S6 buffer: stride 112, version 20240218, one record with hex base 1,
validity byte 73 = 0b0100_0000, lat micro-degrees 40500000 at record offset
12, lon micro-degrees -75500000 at record offset 8, all other bytes zero. -/
def s6_buffer : List Nat :=
  bytesWith 224
    [(8, 112),
     (40, 90), (41, 215), (42, 52), (43, 1),
     (112, 1),
     (185, 64),
     (120, 32), (121, 246), (122, 127), (123, 251),
     (124, 32), (125, 251), (126, 105), (127, 2)]

/-- The C6 counterexample buffer: the S6 buffer with the record's i32 at
offset 4 set to 50 (5.0 s) and its i32 at offset 108 set to 100 (10.0 s). -/
def s6_buffer_two_seen : List Nat :=
  bytesWith 224
    [(8, 112),
     (40, 90), (41, 215), (42, 52), (43, 1),
     (112, 1),
     (185, 64),
     (120, 32), (121, 246), (122, 127), (123, 251),
     (124, 32), (125, 251), (126, 105), (127, 2),
     (116, 50),
     (220, 100)]

deriving instance DecidableEq for Except

theorem decode_bincraft_record_last_seen (version : Nat) (u8 : List Nat)
    (a : TrafficAircraft) (h : decode_bincraft_record version u8 = some a) :
    a.last_seen_seconds = bincraft_last_seen version u8 := by
  simp only [decode_bincraft_record] at h
  split at h
  · exact absurd h (by simp)
  · split at h
    · split at h
      · exact absurd h (by simp)
      · obtain rfl := Option.some.inj h
        rfl
    · exact absurd h (by simp)

/-- C6 counterexample: a version-20240218 buffer whose single record carries
i32 50 at record offset 4 (5.0 s) and i32 100 at record offset 108 (10.0 s).
The decoder emits `last_seen_seconds = 10.0`, not the 5.0 that
`i32_le(4) / 10` gives, refuting the claimed formula. -/
theorem bincraft_last_seen_offset4_counterexample :
    (read_u32_le s6_buffer_two_seen 40).getD 0 = 20240218 ∧
    read_i32_le ((s6_buffer_two_seen.drop 112).take 112) 4 = some 50 ∧
    read_i32_le ((s6_buffer_two_seen.drop 112).take 112) 108 = some 100 ∧
    decode_bincraft_aircraft s6_buffer_two_seen
      = Except.ok
        [{ hex := "000001",
           flight := none,
           lat := ⟨40500000, 1000000⟩,
           lon := ⟨-75500000, 1000000⟩,
           is_on_ground := false,
           altitude_feet := none,
           ground_speed_kt := none,
           track_deg := none,
           last_seen_seconds := some ⟨100, 10⟩ }] ∧
    ¬ (⟨100, 10⟩ : F).veq ((F.ofInt 50).div 10) := by decide

/-- C6 (amended): with version at least 20240218, a decoded record's
`last_seen_seconds` is the i32-LE value at record offset 108 divided by 10
whenever that value lies in `[0, 86400]` seconds, and only falls back to the
i32-LE value at record offset 4 divided by 10 otherwise; on the S6
single-record buffer (whose remaining bytes are zero) the decoder emits
exactly one aircraft with lat 40.5, lon -75.5, not on ground, no altitude,
speed, track or flight, and `last_seen_seconds = 0`, which equals both
`i32_le(108) / 10` and `i32_le(4) / 10` there. -/
theorem bincraft_last_seen_prefers_offset108 :
    (∀ (version : Nat) (u8 : List Nat) (a : TrafficAircraft),
      BINCRAFT_S32_SEEN_VERSION ≤ version →
      decode_bincraft_record version u8 = some a →
      a.last_seen_seconds =
        (match ((read_i32_le u8 108).map
            (fun v => (F.ofInt v).div 10)).bind normalize_seen_seconds_value with
         | some v => some v
         | none => ((read_i32_le u8 4).map
            (fun v => (F.ofInt v).div 10)).bind normalize_seen_seconds_value)) ∧
    (decode_bincraft_aircraft s6_buffer
      = Except.ok
        [{ hex := "000001",
           flight := none,
           lat := ⟨40500000, 1000000⟩,
           lon := ⟨-75500000, 1000000⟩,
           is_on_ground := false,
           altitude_feet := none,
           ground_speed_kt := none,
           track_deg := none,
           last_seen_seconds := some ⟨0, 10⟩ }] ∧
      (⟨40500000, 1000000⟩ : F).veq ⟨405, 10⟩ ∧
      (⟨-75500000, 1000000⟩ : F).veq ⟨-755, 10⟩ ∧
      (⟨0, 10⟩ : F).veq 0) := by
  constructor
  · intro version u8 a hv h
    rw [decode_bincraft_record_last_seen version u8 a h]
    unfold bincraft_last_seen
    rw [if_pos hv, if_pos hv]
  · decide

/-- Witness applying the amended C6 theorem to the S6 record bytes. -/
theorem bincraft_last_seen_prefers_offset108_witness :
    ({ hex := "000001",
       flight := none,
       lat := ⟨40500000, 1000000⟩,
       lon := ⟨-75500000, 1000000⟩,
       is_on_ground := false,
       altitude_feet := none,
       ground_speed_kt := none,
       track_deg := none,
       last_seen_seconds := some ⟨0, 10⟩ } : TrafficAircraft).last_seen_seconds
      = (match ((read_i32_le ((s6_buffer.drop 112).take 112) 108).map
          (fun v => (F.ofInt v).div 10)).bind normalize_seen_seconds_value with
         | some v => some v
         | none => ((read_i32_le ((s6_buffer.drop 112).take 112) 4).map
            (fun v => (F.ofInt v).div 10)).bind normalize_seen_seconds_value) :=
  bincraft_last_seen_prefers_offset108.1 20240218
    ((s6_buffer.drop 112).take 112) _ (by decide) (by decide)

/-! ## Snapshot and volume-query types (src/services/mrms-rs/src/types.rs and
api.rs).  `QueryWindow` is produced by `build_query_window` from trigonometric
projection scales; the claims below hold for every window, so the window is
universally quantified rather than reconstructed. -/

def F.ofNat (n : Nat) : F := ⟨(n : Int), 1⟩

/-- `StoredVoxel` from types.rs. -/
structure StoredVoxel where
  row : Nat
  col : Nat
  level_idx : Nat
  phase : Nat
  dbz_tenths : Int
  deriving Repr, DecidableEq

instance : Inhabited StoredVoxel := ⟨⟨0, 0, 0, 0, 0⟩⟩

/-- `GridDef` from types.rs. -/
structure GridDef where
  nx : Nat
  ny : Nat
  la1_deg : F
  lo1_deg360 : F
  di_deg : F
  dj_deg : F
  scanning_mode : Nat
  lat_step_deg : F
  lon_step_deg : F
  deriving Repr

/-- `ScanSnapshot` from types.rs (the `phase_debug` metadata record carried by
the running code is not declared in the checked-in types.rs and is irrelevant
to the claims, so it is omitted). -/
structure ScanSnapshot where
  timestamp : String
  generated_at_ms : Int
  scan_time_ms : Int
  grid : GridDef
  tile_size : Nat
  tile_cols : Nat
  tile_rows : Nat
  level_bounds : List LevelBounds
  tile_offsets : List Nat
  voxels : List StoredVoxel
  deriving Repr

/-- `QueryWindow` from api.rs. -/
structure QueryWindow where
  min_dbz_tenths : Int
  origin_lat : F
  origin_lon : F
  origin_lon360 : F
  max_range_nm : F
  max_range_squared_nm : F
  east_nm_per_lon_deg_safe : F
  north_nm_per_lat_deg_safe : F
  row_start : Nat
  row_end : Nat
  col_start : Nat
  col_end : Nat
  lon_wrapped : Bool
  tile_row_start : Nat
  tile_row_end : Nat
  tile_col_start : Nat
  tile_col_end : Nat
  footprint_x_milli : Nat
  footprint_y_milli : Nat
  deriving Repr

/-- `project_grid_position_nm` from api.rs. -/
def project_grid_position_nm (scan : ScanSnapshot) (window : QueryWindow)
    (row col : F) : F × F :=
  let lat_deg := scan.grid.la1_deg.add (row.mul scan.grid.lat_step_deg)
  let lon_deg360 := to_lon360 (scan.grid.lo1_deg360.add
    (col.mul scan.grid.lon_step_deg))
  let delta_lon_deg := shortest_lon_delta_degrees lon_deg360 window.origin_lon360
  let x_nm := delta_lon_deg.mul window.east_nm_per_lon_deg_safe
  let z_nm := ((lat_deg.sub window.origin_lat).neg).mul
    window.north_nm_per_lat_deg_safe
  (x_nm, z_nm)

/-- The inclusive tile ranges scanned by the volume builders. -/
def tile_pairs (window : QueryWindow) : List (Nat × Nat) :=
  ((List.range (window.tile_row_end + 1 - window.tile_row_start)).map
      (fun i => window.tile_row_start + i)).flatMap
    (fun tile_row =>
      ((List.range (window.tile_col_end + 1 - window.tile_col_start)).map
          (fun i => window.tile_col_start + i)).map
        (fun tile_col => (tile_row, tile_col)))

/-- The voxel run of one tile: `voxels[tile_offsets[i]..tile_offsets[i+1]]`,
skipped when `tile_idx + 1` falls outside the offset table.  (On a
well-formed snapshot the offsets are monotone and bounded, so the slice
equals the Rust slice.) -/
def tile_slice (scan : ScanSnapshot) (tile_idx : Nat) : List StoredVoxel :=
  if scan.tile_offsets.length ≤ tile_idx + 1 then []
  else
    let start := scan.tile_offsets.getD tile_idx 0
    let stop := scan.tile_offsets.getD (tile_idx + 1) 0
    (scan.voxels.drop start).take (stop - start)

/-- All voxels scanned by the tile loops, in scan order. -/
def candidate_voxels (scan : ScanSnapshot) (window : QueryWindow) :
    List StoredVoxel :=
  (tile_pairs window).flatMap
    (fun p => tile_slice scan (p.1 * scan.tile_cols + p.2))

/-- The shared per-voxel filter of `build_volume_wire_v1` and
`build_volume_wire_v2`: row/column window, minimum dBz, and great-circle
range on the projected position. -/
def volume_accepts (scan : ScanSnapshot) (window : QueryWindow)
    (record : StoredVoxel) : Bool :=
  if record.row < window.row_start ∨ window.row_end < record.row then false
  else if (!window.lon_wrapped) &&
      (decide (record.col < window.col_start) ||
        decide (window.col_end < record.col)) then false
  else if record.dbz_tenths < window.min_dbz_tenths then false
  else
    let xz := project_grid_position_nm scan window (F.ofNat record.row)
      (F.ofNat record.col)
    if window.max_range_squared_nm < (xz.1.mul xz.1).add (xz.2.mul xz.2) then
      false
    else true

/-! ## V1 wire records (src/services/mrms-rs/src/api.rs,
`build_volume_wire_v1`). -/

/-- Little-endian `i16` serialization (two's complement). -/
def i16_le_bytes (v : Int) : List Nat :=
  let u := (v.emod 65536).toNat
  [u % 256, u / 256]

/-- Little-endian `u16` serialization. -/
def u16_le_bytes (v : Nat) : List Nat :=
  [v % 256, v / 256 % 256]

/-- Modelled from the spec: `WIRE_V1_VERSION` is referenced by api.rs but not
defined in the checked-in constants.rs; the spec fixes the V1 wire version
to 1. -/
def WIRE_V1_VERSION : Nat := 1

/-- Modelled from the spec: `WIRE_V1_RECORD_BYTES` is referenced by api.rs
(it is the declared `record_bytes` of the V1 header) but not defined in the
checked-in constants.rs; the spec declares a V1 record size of 16 bytes. -/
def WIRE_V1_RECORD_BYTES : Nat := 16

/-- The bytes appended for one accepted voxel by `build_volume_wire_v1`
(api.rs lines 537-543). -/
def v1_voxel_record (x_nm z_nm : F) (bounds : LevelBounds) (dbz_tenths : Int)
    (phase level_idx : Nat) : List Nat :=
  i16_le_bytes (round_i16 (x_nm.mul 100)) ++
  i16_le_bytes (round_i16 (z_nm.mul 100)) ++
  u16_le_bytes bounds.bottom_feet ++
  u16_le_bytes bounds.top_feet ++
  i16_le_bytes dbz_tenths ++
  [phase % 256] ++
  [level_idx % 256]

/-- The record list produced by the body of `build_volume_wire_v1`: one
12-byte record per accepted voxel with known level bounds. -/
def build_volume_wire_v1_records (scan : ScanSnapshot) (window : QueryWindow) :
    List (List Nat) :=
  (candidate_voxels scan window).filterMap (fun record =>
    if volume_accepts scan window record then
      match scan.level_bounds.get? record.level_idx with
      | some bounds =>
          let xz := project_grid_position_nm scan window (F.ofNat record.row)
            (F.ofNat record.col)
          some (v1_voxel_record xz.1 xz.2 bounds record.dbz_tenths
            record.phase record.level_idx)
      | none => none
    else none)

/-- C9 counterexample: the record emitted for the S3 voxel consists of the
seven claimed fields but occupies 12 bytes, not the 16 bytes the claim (and
the header's declared record size) states. -/
theorem v1_record_is_12_bytes_not_16 :
    (v1_voxel_record ⟨-12345, 1000⟩ ⟨4567, 1000⟩ ⟨5000, 6000⟩ 375 0 5).length
      = 12 ∧
    WIRE_V1_RECORD_BYTES = 16 ∧
    (12 : Nat) ≠ 16 := by decide

/-- C9 (amended): each V1 volume record consists of exactly the fields
`i16(round(x_nm*100))`, `i16(round(z_nm*100))`, `u16(bottom_feet)`,
`u16(top_feet)`, `i16(dbz_tenths)`, `u8(phase)`, `u8(level_idx)` and
occupies 12 bytes (the header's declared record size, 16, does not match);
for the S3 voxel (x = -12.345 nm, z = 4.567 nm, bounds 5000/6000 ft,
dBz-tenths 375, phase 0, level 5, inside a 50 nm range) the emitted record is
`i16(-1235), i16(457), u16(5000), u16(6000), i16(375), u8(0), u8(5)`. -/
theorem v1_record_fields (scan : ScanSnapshot) (window : QueryWindow) :
    (∀ r ∈ build_volume_wire_v1_records scan window, r.length = 12) ∧
    (v1_voxel_record ⟨-12345, 1000⟩ ⟨4567, 1000⟩ ⟨5000, 6000⟩ 375 0 5
      = i16_le_bytes (-1235) ++ i16_le_bytes 457 ++ u16_le_bytes 5000 ++
        u16_le_bytes 6000 ++ i16_le_bytes 375 ++ [0] ++ [5]) ∧
    (round_i16 ((⟨-12345, 1000⟩ : F).mul 100) = -1235 ∧
      round_i16 ((⟨4567, 1000⟩ : F).mul 100) = 457) ∧
    (((⟨-12345, 1000⟩ : F).mul ⟨-12345, 1000⟩).add
        ((⟨4567, 1000⟩ : F).mul ⟨4567, 1000⟩) ≤ (2500 : F)) := by
  refine ⟨?_, by decide, by decide, by decide⟩
  intro r hr
  rcases List.mem_filterMap.mp hr with ⟨record, _, hrec⟩
  by_cases hacc : volume_accepts scan window record = true
  case neg => rw [if_neg hacc] at hrec; exact absurd hrec (by simp)
  case pos =>
  rw [if_pos hacc] at hrec
  cases hlb : scan.level_bounds.get? record.level_idx with
  | none => rw [hlb] at hrec; exact absurd hrec (by simp)
  | some bounds =>
      rw [hlb] at hrec
      obtain rfl := Option.some.inj hrec
      simp [v1_voxel_record, i16_le_bytes, u16_le_bytes]

/-- Witness for the amended C9 theorem: the record list of an empty snapshot
query satisfies the 12-byte bound at any member (vacuously instantiated via a
concrete empty query), together with the concrete S3 record bytes. -/
theorem v1_record_fields_witness :
    v1_voxel_record ⟨-12345, 1000⟩ ⟨4567, 1000⟩ ⟨5000, 6000⟩ 375 0 5
      = i16_le_bytes (-1235) ++ i16_le_bytes 457 ++ u16_le_bytes 5000 ++
        u16_le_bytes 6000 ++ i16_le_bytes 375 ++ [0] ++ [5] :=
  (v1_record_fields
    { timestamp := "20260101-000000",
      generated_at_ms := 0,
      scan_time_ms := 0,
      grid := { nx := 1, ny := 1, la1_deg := 40, lo1_deg360 := 285,
                di_deg := ⟨1, 100⟩, dj_deg := ⟨1, 100⟩, scanning_mode := 0,
                lat_step_deg := ⟨-1, 100⟩, lon_step_deg := ⟨1, 100⟩ },
      tile_size := 64,
      tile_cols := 1,
      tile_rows := 1,
      level_bounds := [⟨1230, 2051⟩],
      tile_offsets := [0, 0],
      voxels := [] }
    { min_dbz_tenths := 50,
      origin_lat := 40,
      origin_lon := -75,
      origin_lon360 := 285,
      max_range_nm := 50,
      max_range_squared_nm := 2500,
      east_nm_per_lon_deg_safe := 46,
      north_nm_per_lat_deg_safe := 60,
      row_start := 0, row_end := 0, col_start := 0, col_end := 0,
      lon_wrapped := false,
      tile_row_start := 0, tile_row_end := 0,
      tile_col_start := 0, tile_col_end := 0,
      footprint_x_milli := 460, footprint_y_milli := 600 }).2.1

/-! ## V2 merge pipeline (src/services/mrms-rs/src/api.rs,
`build_volume_wire_v2`, `build_level_rectangles`, `split_rectangle`).
`u32` saturating additions are modelled as plain `Nat` additions: every
saturating add in this pipeline operates on values derived from `u16` voxel
coordinates, far below the `u32` limit.  `u8`/`u16` casts of level indices
are modelled exactly (`% 256`, `% 65536`). -/

def WIRE_V2_DBZ_QUANT_STEP_TENTHS : Int := 50
def WIRE_V2_MAX_SPAN_LOW_DBZ : Nat := 48
def WIRE_V2_MAX_SPAN_HIGH_DBZ : Nat := 20
def WIRE_V2_MAX_VERTICAL_SPAN : Nat := 4

/-- `MergeKey` from api.rs. -/
structure MergeKey where
  phase : Nat
  dbz_tenths : Int
  deriving Repr, DecidableEq

instance : Inhabited MergeKey := ⟨⟨0, 0⟩⟩

/-- `MergeCell` from api.rs. -/
structure MergeCell where
  row : Nat
  col : Nat
  key : MergeKey
  deriving Repr, DecidableEq

/-- `RowRun` from api.rs. -/
structure RowRun where
  col_start : Nat
  col_end : Nat
  key : MergeKey
  deriving Repr, DecidableEq

/-- `RunSignature` from api.rs. -/
structure RunSignature where
  col_start : Nat
  col_end : Nat
  key : MergeKey
  deriving Repr, DecidableEq

/-- `HorizontalRect` from api.rs. -/
structure HorizontalRect where
  row_start : Nat
  row_end : Nat
  col_start : Nat
  col_end : Nat
  key : MergeKey
  deriving Repr, DecidableEq

instance : Inhabited HorizontalRect := ⟨⟨0, 0, 0, 0, default⟩⟩

/-- `VerticalSignature` from api.rs. -/
structure VerticalSignature where
  row_start : Nat
  row_end : Nat
  col_start : Nat
  col_end : Nat
  key : MergeKey
  deriving Repr, DecidableEq

/-- `BrickCandidate` from api.rs (`level_start`/`level_end` are `u8`). -/
structure BrickCandidate where
  row_start : Nat
  row_end : Nat
  col_start : Nat
  col_end : Nat
  level_start : Nat
  level_end : Nat
  key : MergeKey
  deriving Repr, DecidableEq

instance : Inhabited BrickCandidate := ⟨⟨0, 0, 0, 0, 0, 0, default⟩⟩

/-- Association-list insertion with `HashMap::insert` semantics (replace an
existing key, else append). -/
def alist_insert {κ ν : Type} [DecidableEq κ] (m : List (κ × ν)) (k : κ)
    (v : ν) : List (κ × ν) :=
  if m.any (fun e => e.1 = k) then
    m.map (fun e => if e.1 = k then (k, v) else e)
  else m ++ [(k, v)]

/-- Association-list removal with `HashMap::remove` semantics. -/
def alist_remove {κ ν : Type} [DecidableEq κ] (m : List (κ × ν)) (k : κ) :
    Option ν × List (κ × ν) :=
  match m.find? (fun e => decide (e.1 = k)) with
  | some e => (some e.2, m.eraseP (fun e => decide (e.1 = k)))
  | none => (none, m)

/-- `quantize_dbz_tenths` from api.rs: symmetric round-to-step in `i32`
(Rust `/` on `i32` truncates toward zero, as Lean `Int` division does),
clamped to the `i16` range. -/
def quantize_dbz_tenths (dbz_tenths : Int) (step_tenths : Int) : Int :=
  if step_tenths ≤ 1 then dbz_tenths
  else
    let step := step_tenths
    let value := dbz_tenths
    let half := step / 2
    let quantized :=
      if 0 ≤ value then ((value + half) / step) * step
      else ((value - half) / step) * step
    max (-32768) (min quantized 32767)

/-- `max_span_for_dbz` from api.rs. -/
def max_span_for_dbz (dbz_tenths : Int) : Nat :=
  if 450 ≤ dbz_tenths then max WIRE_V2_MAX_SPAN_HIGH_DBZ 1
  else max WIRE_V2_MAX_SPAN_LOW_DBZ 1

/-- Column chunking of `split_rectangle` (the inner `while`).  Fuel bounds
the iteration count; the caller provides enough for the loop to run to its
`break`. -/
def split_cols (chunk_size row_start row_end col_limit : Nat) (key : MergeKey) :
    Nat → Nat → List HorizontalRect
  | 0, _ => []
  | fuel + 1, col_start =>
      if col_limit < col_start then []
      else
        let col_end := min (col_start + (chunk_size - 1)) col_limit
        if col_end = col_limit then
          [⟨row_start, row_end, col_start, col_end, key⟩]
        else
          ⟨row_start, row_end, col_start, col_end, key⟩ ::
            split_cols chunk_size row_start row_end col_limit key
              fuel (col_end + 1)

/-- Row chunking of `split_rectangle` (the outer `while`). -/
def split_rows (chunk_size : Nat) (rect : HorizontalRect) :
    Nat → Nat → List HorizontalRect
  | 0, _ => []
  | fuel + 1, row_start =>
      if rect.row_end < row_start then []
      else
        let row_end := min (row_start + (chunk_size - 1)) rect.row_end
        let cols := split_cols chunk_size row_start row_end rect.col_end
          rect.key (rect.col_end + 1) rect.col_start
        if row_end = rect.row_end then cols
        else
          cols ++ split_rows chunk_size rect fuel (row_end + 1)

/-- `split_rectangle` from api.rs: chop a rectangle into row/column chunks of
at most `max_span.max(1)` cells per side. -/
def split_rectangle (rect : HorizontalRect) (max_span : Nat) :
    List HorizontalRect :=
  split_rows (max max_span 1) rect (rect.row_end + 1) rect.row_start

/-- Insertion into a sorted list (used to model the sorts of this pipeline:
their comparators are total and tie only on identical elements, so every
sorted permutation — Rust `sort_unstable_by`, merge sort, insertion sort —
yields the same list). -/
def insert_sorted {α : Type} (le : α → α → Bool) (x : α) :
    List α → List α
  | [] => [x]
  | y :: ys => if le x y then x :: y :: ys else y :: insert_sorted le x ys

/-- Sort by repeated insertion. -/
def sort_by_le {α : Type} (le : α → α → Bool) (l : List α) : List α :=
  l.foldr (insert_sorted le) []

/-- The comparator of `build_level_rectangles`'s sort: by row, then column,
then phase, then quantized dBz. -/
def cell_le (a b : MergeCell) : Bool :=
  if a.row ≠ b.row then decide (a.row < b.row)
  else if a.col ≠ b.col then decide (a.col < b.col)
  else if a.key.phase ≠ b.key.phase then decide (a.key.phase < b.key.phase)
  else decide (a.key.dbz_tenths ≤ b.key.dbz_tenths)

/-- Run accumulation of `build_level_rectangles` over the sorted cells:
ignore a duplicate cell, extend a run by one contiguous column, otherwise
flush the current run and start a new one.  Produces `(row, run)` pairs in
emission order. -/
def build_runs_go (run_row run_col_start run_col_end : Nat)
    (run_key : MergeKey) : List MergeCell → List (Nat × RowRun)
  | [] => [(run_row, ⟨run_col_start, run_col_end, run_key⟩)]
  | cell :: rest =>
      if cell.row = run_row ∧ cell.key = run_key ∧ cell.col = run_col_end then
        build_runs_go run_row run_col_start run_col_end run_key rest
      else if cell.row = run_row ∧ cell.key = run_key ∧
          cell.col = run_col_end + 1 then
        build_runs_go run_row run_col_start cell.col run_key rest
      else
        (run_row, ⟨run_col_start, run_col_end, run_key⟩) ::
          build_runs_go cell.row cell.col cell.col cell.key rest

/-- The `runs_by_row` `BTreeMap` of `build_level_rectangles`: rows in
ascending order, each with its runs in emission order. -/
def runs_by_row (runs : List (Nat × RowRun)) : List (Nat × List RowRun) :=
  (sort_by_le (fun a b => decide (a ≤ b)) (runs.map Prod.fst).dedup).map
    (fun row => (row, (runs.filter (fun e => e.1 = row)).map Prod.snd))

/-- State of the vertical-extension pass of `build_level_rectangles`. -/
structure RectState where
  rectangles : List HorizontalRect
  active : List (RunSignature × Nat)
  prev_row : Option Nat

/-- One row of the vertical-extension pass: clear the active set across row
gaps, then extend or create one rectangle per run. -/
def rect_row_step (state : RectState) (row : Nat) (runs : List RowRun) :
    RectState :=
  let active0 :=
    match state.prev_row with
    | some previous_row =>
        if row ≠ previous_row + 1 then [] else state.active
    | none => state.active
  let folded := runs.foldl
    (fun (st : List HorizontalRect × List (RunSignature × Nat) ×
        List (RunSignature × Nat)) run =>
      let sig : RunSignature := ⟨run.col_start, run.col_end, run.key⟩
      match alist_remove st.2.1 sig with
      | (some rect_idx, act2) =>
          (st.1.set rect_idx { st.1.getD rect_idx default with row_end := row },
           act2,
           alist_insert st.2.2 sig rect_idx)
      | (none, act2) =>
          (st.1 ++ [⟨row, row, run.col_start, run.col_end, run.key⟩],
           act2,
           alist_insert st.2.2 sig st.1.length))
    (state.rectangles, active0, ([] : List (RunSignature × Nat)))
  ⟨folded.1, folded.2.2, some row⟩

/-- `build_level_rectangles` from api.rs. -/
def build_level_rectangles (cells : List MergeCell) : List HorizontalRect :=
  if cells.isEmpty then []
  else
    let sorted := sort_by_le cell_le cells
    let runs :=
      match sorted with
      | [] => []
      | c :: rest => build_runs_go c.row c.col c.col c.key rest
    let grouped := runs_by_row runs
    (grouped.foldl (fun st p => rect_row_step st p.1 p.2)
      ⟨[], [], none⟩).rectangles

/-- The accepted `(level, cell)` pairs of `build_volume_wire_v2`'s tile scan:
window/dBz/range-filtered voxels with a known level, phase and quantized dBz
as the merge key, in scan order. -/
def v2_accepted_cells (scan : ScanSnapshot) (window : QueryWindow) :
    List (Nat × MergeCell) :=
  (candidate_voxels scan window).filterMap (fun record =>
    if volume_accepts scan window record then
      if scan.level_bounds.length ≤ record.level_idx then none
      else some (record.level_idx,
        ⟨record.row, record.col,
         ⟨record.phase,
          quantize_dbz_tenths record.dbz_tenths WIRE_V2_DBZ_QUANT_STEP_TENTHS⟩⟩)
    else none)

/-- A `u32` counter incremented with `saturating_add(1)` for every matching
element. -/
def sat_count {α : Type} (l : List α) (p : α → Bool) : Nat :=
  l.foldl (fun acc a => if p a then min (acc + 1) 4294967295 else acc) 0

/-- The per-level source-voxel counts written into the V2 layer-count
table. -/
def v2_layer_counts (scan : ScanSnapshot) (window : QueryWindow) : List Nat :=
  (List.range scan.level_bounds.length).map
    (fun level => sat_count (v2_accepted_cells scan window)
      (fun c => c.1 = level))

/-- The `source_voxel_count` value stored at V2 header offset 8. -/
def v2_source_voxel_count (scan : ScanSnapshot) (window : QueryWindow) : Nat :=
  sat_count (v2_accepted_cells scan window) (fun _ => true)

/-- The split rectangles per level (`rectangles_by_level` in
`build_volume_wire_v2`). -/
def v2_rectangles_by_level (scan : ScanSnapshot) (window : QueryWindow) :
    List (List HorizontalRect) :=
  (List.range scan.level_bounds.length).map (fun level =>
    let cells := ((v2_accepted_cells scan window).filter
      (fun c => c.1 = level)).map Prod.snd
    (build_level_rectangles cells).flatMap (fun rect =>
      split_rectangle rect (max_span_for_dbz rect.key.dbz_tenths)))

/-- One level of the brick-extrusion pass of `build_volume_wire_v2`
(api.rs lines 636-679), with the `u8`/`u16` casts of level indices made
explicit: one rectangle of the current level either extends the brick that
carries the same vertical signature (contiguous level, span and bounds-gap
checks) or opens a new single-level brick. -/
def brick_rect_step (scan : ScanSnapshot) (level_idx : Nat)
    (acc : List BrickCandidate × List (VerticalSignature × Nat) ×
      List (VerticalSignature × Nat)) (rect : HorizontalRect) :
    List BrickCandidate × List (VerticalSignature × Nat) ×
      List (VerticalSignature × Nat) :=
  let sig : VerticalSignature :=
    ⟨rect.row_start, rect.row_end, rect.col_start, rect.col_end, rect.key⟩
  let removed := alist_remove acc.2.1 sig
  let extend_target : Option Nat :=
    match removed.1 with
    | some existing_idx =>
        let current := acc.1.getD existing_idx default
        let next_vertical_span :=
          (level_idx % 65536 - current.level_start % 65536 + 1) % 65536
        if current.level_end + 1 = level_idx ∧
            next_vertical_span ≤ WIRE_V2_MAX_VERTICAL_SPAN ∧
            (scan.level_bounds.getD level_idx default).bottom_feet ≤
              min ((scan.level_bounds.getD current.level_end
                default).top_feet + 1) 65535 then
          some existing_idx
        else none
    | none => none
  match extend_target with
  | some existing_idx =>
      (acc.1.set existing_idx
        { acc.1.getD existing_idx default with level_end := level_idx % 256 },
       removed.2,
       alist_insert acc.2.2 sig existing_idx)
  | none =>
      (acc.1 ++ [⟨rect.row_start, rect.row_end, rect.col_start,
          rect.col_end, level_idx % 256, level_idx % 256, rect.key⟩],
       removed.2,
       alist_insert acc.2.2 sig acc.1.length)

/-- One level of the brick-extrusion pass: fold `brick_rect_step` over the
level's rectangles, starting from an empty next-level active map. -/
def brick_level_step (scan : ScanSnapshot)
    (st : List BrickCandidate × List (VerticalSignature × Nat))
    (level_idx : Nat) (rectangles : List HorizontalRect) :
    List BrickCandidate × List (VerticalSignature × Nat) :=
  let folded := rectangles.foldl (brick_rect_step scan level_idx)
    (st.1, st.2, ([] : List (VerticalSignature × Nat)))
  (folded.1, folded.2.2)

/-- The merged brick list of `build_volume_wire_v2`. -/
def v2_merged_bricks (scan : ScanSnapshot) (window : QueryWindow) :
    List BrickCandidate :=
  ((v2_rectangles_by_level scan window).enum.foldl
    (fun st p => brick_level_step scan st p.1 p.2) ([], [])).1

/-- The bricks that are actually written to the V2 body: merged bricks whose
level bounds exist and whose projected footprint center is within range. -/
def v2_emitted_bricks (scan : ScanSnapshot) (window : QueryWindow) :
    List BrickCandidate :=
  (v2_merged_bricks scan window).filter (fun brick =>
    ((scan.level_bounds.get? brick.level_start).isSome &&
     (scan.level_bounds.get? brick.level_end).isSome) &&
    (let center_row := ((F.ofNat brick.row_start).add
        (F.ofNat brick.row_end)).mul ⟨1, 2⟩
     let center_col := ((F.ofNat brick.col_start).add
        (F.ofNat brick.col_end)).mul ⟨1, 2⟩
     let xz := project_grid_position_nm scan window center_row center_col
     decide (¬ window.max_range_squared_nm <
        (xz.1.mul xz.1).add (xz.2.mul xz.2))))

theorem split_cols_wf (chunk_size row_start row_end col_limit : Nat)
    (key : MergeKey) :
    ∀ (fuel col_start : Nat),
      ∀ r ∈ split_cols chunk_size row_start row_end col_limit key fuel
          col_start,
        r.row_start = row_start ∧ r.row_end = row_end ∧ r.key = key ∧
        r.col_start ≤ r.col_end ∧
        r.col_end + 1 - r.col_start ≤ max chunk_size 1 := by
  intro fuel
  induction fuel with
  | zero => intro col_start r hr; exact absurd hr (List.not_mem_nil r)
  | succ fuel ih =>
      intro col_start r hr
      unfold split_cols at hr
      by_cases hguard : col_limit < col_start
      case pos => rw [if_pos hguard] at hr; exact absurd hr (List.not_mem_nil r)
      case neg =>
      rw [if_neg hguard] at hr
      by_cases hlast : min (col_start + (chunk_size - 1)) col_limit = col_limit
      case pos =>
        rw [if_pos hlast] at hr
        rw [List.mem_singleton] at hr
        subst hr
        refine ⟨rfl, rfl, rfl, ?_, ?_⟩ <;> simp only [] <;> omega
      case neg =>
        rw [if_neg hlast] at hr
        rcases List.mem_cons.mp hr with rfl | hmem
        · refine ⟨rfl, rfl, rfl, ?_, ?_⟩ <;> simp only [] <;> omega
        · exact ih _ r hmem

theorem split_rows_wf (chunk_size : Nat) (rect : HorizontalRect) :
    ∀ (fuel row_start : Nat),
      ∀ r ∈ split_rows chunk_size rect fuel row_start,
        r.key = rect.key ∧
        r.row_start ≤ r.row_end ∧ r.col_start ≤ r.col_end ∧
        r.row_end + 1 - r.row_start ≤ max chunk_size 1 ∧
        r.col_end + 1 - r.col_start ≤ max chunk_size 1 := by
  intro fuel
  induction fuel with
  | zero => intro row_start r hr; exact absurd hr (List.not_mem_nil r)
  | succ fuel ih =>
      intro row_start r hr
      unfold split_rows at hr
      by_cases hguard : rect.row_end < row_start
      case pos => rw [if_pos hguard] at hr; exact absurd hr (List.not_mem_nil r)
      case neg =>
      rw [if_neg hguard] at hr
      by_cases hlast : min (row_start + (chunk_size - 1)) rect.row_end
          = rect.row_end
      case pos =>
        rw [if_pos hlast] at hr
        obtain ⟨h1, h2, h3, h4, h5⟩ := split_cols_wf chunk_size row_start
          (min (row_start + (chunk_size - 1)) rect.row_end) rect.col_end
          rect.key _ _ r hr
        exact ⟨h3, by omega, h4, by omega, h5⟩
      case neg =>
        rw [if_neg hlast] at hr
        rcases List.mem_append.mp hr with hmem | hmem
        · obtain ⟨h1, h2, h3, h4, h5⟩ := split_cols_wf chunk_size row_start
            (min (row_start + (chunk_size - 1)) rect.row_end) rect.col_end
            rect.key _ _ r hmem
          exact ⟨h3, by omega, h4, by omega, h5⟩
        · exact ih _ r hmem

theorem split_rectangle_wf (rect : HorizontalRect) (max_span : Nat) :
    ∀ r ∈ split_rectangle rect max_span,
      r.key = rect.key ∧
      r.row_start ≤ r.row_end ∧ r.col_start ≤ r.col_end ∧
      r.row_end + 1 - r.row_start ≤ max max_span 1 ∧
      r.col_end + 1 - r.col_start ≤ max max_span 1 := by
  intro r hr
  obtain ⟨h1, h2, h3, h4, h5⟩ := split_rows_wf (max max_span 1) rect _ _ r hr
  exact ⟨h1, h2, h3, by omega, by omega⟩

theorem max_span_for_dbz_pos (dbz : Int) : 1 ≤ max_span_for_dbz dbz := by
  unfold max_span_for_dbz
  split <;> decide

theorem v2_rectangles_wf (scan : ScanSnapshot) (window : QueryWindow) :
    ∀ rects ∈ v2_rectangles_by_level scan window, ∀ r ∈ rects,
      r.row_start ≤ r.row_end ∧ r.col_start ≤ r.col_end ∧
      r.row_end + 1 - r.row_start ≤ max_span_for_dbz r.key.dbz_tenths ∧
      r.col_end + 1 - r.col_start ≤ max_span_for_dbz r.key.dbz_tenths := by
  intro rects hrects r hr
  rcases List.mem_map.mp hrects with ⟨level, _, rfl⟩
  rcases List.mem_flatMap.mp hr with ⟨rect, _, hsplit⟩
  obtain ⟨hkey, h2, h3, h4, h5⟩ := split_rectangle_wf rect
    (max_span_for_dbz rect.key.dbz_tenths) r hsplit
  have hpos := max_span_for_dbz_pos rect.key.dbz_tenths
  rw [hkey]
  exact ⟨h2, h3, by omega, by omega⟩

/-- Well-formedness maintained by the brick-extrusion pass (valid while every
level index fed to the pass is below 256, so the `u8` casts are lossless). -/
def brick_wf (b : BrickCandidate) : Prop :=
  b.row_start ≤ b.row_end ∧ b.col_start ≤ b.col_end ∧
  b.row_end + 1 - b.row_start ≤ max_span_for_dbz b.key.dbz_tenths ∧
  b.col_end + 1 - b.col_start ≤ max_span_for_dbz b.key.dbz_tenths ∧
  b.level_start ≤ b.level_end ∧ b.level_end < 256 ∧
  b.level_end + 1 - b.level_start ≤ WIRE_V2_MAX_VERTICAL_SPAN

theorem list_set_oob {α : Type} :
    ∀ (l : List α) (n : Nat) (a : α), l.length ≤ n → l.set n a = l := by
  intro l
  induction l with
  | nil => intro n a _; rfl
  | cons x xs ih =>
      intro n a h
      cases n with
      | zero => exact absurd h (by simp)
      | succ m => simp only [List.set]; rw [ih m a (by simpa using h)]

theorem brick_rect_step_wf (scan : ScanSnapshot) (level_idx : Nat)
    (hlevel : level_idx < 256) (rect : HorizontalRect)
    (hrect : rect.row_start ≤ rect.row_end ∧ rect.col_start ≤ rect.col_end ∧
      rect.row_end + 1 - rect.row_start ≤
        max_span_for_dbz rect.key.dbz_tenths ∧
      rect.col_end + 1 - rect.col_start ≤
        max_span_for_dbz rect.key.dbz_tenths)
    (acc : List BrickCandidate × List (VerticalSignature × Nat) ×
      List (VerticalSignature × Nat))
    (hacc : ∀ b ∈ acc.1, brick_wf b) :
    ∀ b ∈ (brick_rect_step scan level_idx acc rect).1, brick_wf b := by
  intro b hb
  simp only [brick_rect_step] at hb
  split at hb
  case h_1 existing_idx heq =>
    split at heq
    case h_2 => exact absurd heq (by simp)
    case h_1 i hrem =>
      split at heq
      case isFalse => exact absurd heq (by simp)
      case isTrue hcond =>
        have hi : existing_idx = i := by
          injection heq with h; exact h.symm
        subst hi
        by_cases hidx : existing_idx < acc.1.length
        case neg =>
          rw [list_set_oob _ _ _ (Nat.le_of_not_lt hidx)] at hb
          exact hacc b hb
        case pos =>
          rcases List.mem_or_eq_of_mem_set hb with hmem | hbeq
          · exact hacc b hmem
          · subst hbeq
            have hcur : brick_wf (acc.1.getD existing_idx default) := by
              rw [List.getD_eq_getElem _ _ hidx]
              exact hacc _ (List.getElem_mem hidx)
            obtain ⟨hc1, hc2, hc3, hc4, hc5, hc6, hc7⟩ := hcur
            obtain ⟨hg1, hg2, hg3⟩ := hcond
            simp only [brick_wf, WIRE_V2_MAX_VERTICAL_SPAN] at *
            exact ⟨hc1, hc2, hc3, hc4, by omega, by omega, by omega⟩
  case h_2 heq =>
    rcases List.mem_append.mp hb with hmem | hnew
    · exact hacc b hmem
    · rw [List.mem_singleton] at hnew
      subst hnew
      obtain ⟨hr1, hr2, hr3, hr4⟩ := hrect
      simp only [brick_wf, WIRE_V2_MAX_VERTICAL_SPAN]
      exact ⟨hr1, hr2, hr3, hr4, Nat.le_refl _, Nat.mod_lt _ (by omega),
        by omega⟩

theorem brick_fold_wf (scan : ScanSnapshot) (level_idx : Nat)
    (hlevel : level_idx < 256) :
    ∀ (rectangles : List HorizontalRect),
      (∀ r ∈ rectangles, r.row_start ≤ r.row_end ∧ r.col_start ≤ r.col_end ∧
        r.row_end + 1 - r.row_start ≤ max_span_for_dbz r.key.dbz_tenths ∧
        r.col_end + 1 - r.col_start ≤ max_span_for_dbz r.key.dbz_tenths) →
      ∀ (acc : List BrickCandidate × List (VerticalSignature × Nat) ×
          List (VerticalSignature × Nat)),
        (∀ b ∈ acc.1, brick_wf b) →
        ∀ b ∈ (rectangles.foldl (brick_rect_step scan level_idx) acc).1,
          brick_wf b := by
  intro rectangles
  induction rectangles with
  | nil => intro _ acc hacc b hb; exact hacc b hb
  | cons rect rest ih =>
      intro hrects acc hacc b hb
      exact ih (fun r hr => hrects r (List.mem_cons_of_mem rect hr))
        (brick_rect_step scan level_idx acc rect)
        (brick_rect_step_wf scan level_idx hlevel rect
          (hrects rect (List.mem_cons_self rect rest)) acc hacc) b hb

theorem brick_level_step_wf (scan : ScanSnapshot) (level_idx : Nat)
    (hlevel : level_idx < 256) (rectangles : List HorizontalRect)
    (hrects : ∀ r ∈ rectangles,
      r.row_start ≤ r.row_end ∧ r.col_start ≤ r.col_end ∧
      r.row_end + 1 - r.row_start ≤ max_span_for_dbz r.key.dbz_tenths ∧
      r.col_end + 1 - r.col_start ≤ max_span_for_dbz r.key.dbz_tenths)
    (st : List BrickCandidate × List (VerticalSignature × Nat))
    (hst : ∀ b ∈ st.1, brick_wf b) :
    ∀ b ∈ (brick_level_step scan st level_idx rectangles).1, brick_wf b := by
  intro b hb
  simp only [brick_level_step] at hb
  exact brick_fold_wf scan level_idx hlevel rectangles hrects _ hst b hb

theorem brick_outer_fold_wf (scan : ScanSnapshot) :
    ∀ (pairs : List (Nat × List HorizontalRect)),
      (∀ p ∈ pairs, p.1 < 256 ∧ ∀ r ∈ p.2,
        r.row_start ≤ r.row_end ∧ r.col_start ≤ r.col_end ∧
        r.row_end + 1 - r.row_start ≤ max_span_for_dbz r.key.dbz_tenths ∧
        r.col_end + 1 - r.col_start ≤ max_span_for_dbz r.key.dbz_tenths) →
      ∀ (st : List BrickCandidate × List (VerticalSignature × Nat)),
        (∀ b ∈ st.1, brick_wf b) →
        ∀ b ∈ (pairs.foldl
            (fun st p => brick_level_step scan st p.1 p.2) st).1,
          brick_wf b := by
  intro pairs
  induction pairs with
  | nil => intro _ st hst b hb; exact hst b hb
  | cons p rest ih =>
      intro hpairs st hst b hb
      obtain ⟨hlt, hrects⟩ := hpairs p (List.mem_cons_self p rest)
      exact ih (fun q hq => hpairs q (List.mem_cons_of_mem p hq))
        (brick_level_step scan st p.1 p.2)
        (brick_level_step_wf scan p.1 hlt p.2 hrects st hst) b hb

/-- A concrete snapshot (4x4 grid over the S1 origin, two levels, four
stored voxels in a 2x2 block on each level) used to witness the V2 volume
theorems on real data. -/
def exampleScanV2 : ScanSnapshot :=
  { timestamp := "20260101-000000",
    generated_at_ms := 0,
    scan_time_ms := 0,
    grid := { nx := 4, ny := 4, la1_deg := 40, lo1_deg360 := 285,
              di_deg := ⟨1, 100⟩, dj_deg := ⟨1, 100⟩, scanning_mode := 0,
              lat_step_deg := ⟨-1, 100⟩, lon_step_deg := ⟨1, 100⟩ },
    tile_size := 64,
    tile_cols := 1,
    tile_rows := 1,
    level_bounds := [⟨1230, 2051⟩, ⟨2051, 2871⟩],
    tile_offsets := [0, 4],
    voxels := [⟨0, 0, 0, 0, 100⟩, ⟨0, 1, 0, 0, 100⟩,
               ⟨0, 0, 1, 0, 100⟩, ⟨0, 1, 1, 0, 100⟩] }

/-- The matching query window: whole grid, min dBz 5.0, 120 nm range. -/
def exampleWindowV2 : QueryWindow :=
  { min_dbz_tenths := 50,
    origin_lat := 40,
    origin_lon := -75,
    origin_lon360 := 285,
    max_range_nm := 120,
    max_range_squared_nm := 14400,
    east_nm_per_lon_deg_safe := 46,
    north_nm_per_lat_deg_safe := 60,
    row_start := 0, row_end := 3, col_start := 0, col_end := 3,
    lon_wrapped := true,
    tile_row_start := 0, tile_row_end := 0,
    tile_col_start := 0, tile_col_end := 0,
    footprint_x_milli := 460, footprint_y_milli := 600 }

/-- C1: every brick record emitted in a V2 /volume response has
`row_start ≤ row_end`, `col_start ≤ col_end`, `level_start ≤ level_end`,
row span and column span each at most `max_span` — where `max_span` is 20
for quantized bins with dBz ≥ 45.0 (450 tenths) and 48 otherwise — and
level span at most 4; stated for snapshots with at most 256 levels, where
the pass's `u8` level casts are lossless. -/
theorem v2_emitted_brick_invariants (scan : ScanSnapshot)
    (window : QueryWindow) (hlen : scan.level_bounds.length ≤ 256) :
    (∀ d : Int, max_span_for_dbz d = if 450 ≤ d then 20 else 48) ∧
    ∀ b ∈ v2_emitted_bricks scan window,
      b.row_start ≤ b.row_end ∧ b.col_start ≤ b.col_end ∧
      b.level_start ≤ b.level_end ∧
      b.row_end + 1 - b.row_start ≤ max_span_for_dbz b.key.dbz_tenths ∧
      b.col_end + 1 - b.col_start ≤ max_span_for_dbz b.key.dbz_tenths ∧
      b.level_end + 1 - b.level_start ≤ 4 := by
  constructor
  · intro d
    simp only [max_span_for_dbz, WIRE_V2_MAX_SPAN_HIGH_DBZ,
      WIRE_V2_MAX_SPAN_LOW_DBZ]
    split <;> rfl
  · intro b hb
    have hmem : b ∈ v2_merged_bricks scan window :=
      (List.mem_filter.mp hb).1
    have hwf : brick_wf b := by
      simp only [v2_merged_bricks] at hmem
      refine brick_outer_fold_wf scan _ ?_ ([], [])
        (fun b hb => absurd hb (List.not_mem_nil b)) b hmem
      intro p hp
      refine ⟨?_, ?_⟩
      · have hlt := List.fst_lt_of_mem_enum hp
        have hlen2 : (v2_rectangles_by_level scan window).length =
            scan.level_bounds.length := by
          simp [v2_rectangles_by_level]
        omega
      · intro r hr
        exact v2_rectangles_wf scan window p.2
          (List.snd_mem_of_mem_enum hp) r hr
    obtain ⟨h1, h2, h3, h4, h5, _, h7⟩ := hwf
    exact ⟨h1, h2, h5, h3, h4, h7⟩

theorem v2_emitted_brick_invariants_witness :
    exampleScanV2.level_bounds.length ≤ 256 ∧
    v2_emitted_bricks exampleScanV2 exampleWindowV2 ≠ [] ∧
    ((∀ d : Int, max_span_for_dbz d = if 450 ≤ d then 20 else 48) ∧
     ∀ b ∈ v2_emitted_bricks exampleScanV2 exampleWindowV2,
       b.row_start ≤ b.row_end ∧ b.col_start ≤ b.col_end ∧
       b.level_start ≤ b.level_end ∧
       b.row_end + 1 - b.row_start ≤ max_span_for_dbz b.key.dbz_tenths ∧
       b.col_end + 1 - b.col_start ≤ max_span_for_dbz b.key.dbz_tenths ∧
       b.level_end + 1 - b.level_start ≤ 4) :=
  ⟨by decide, by decide,
   v2_emitted_brick_invariants exampleScanV2 exampleWindowV2 (by decide)⟩

theorem sat_count_fold {α : Type} (p : α → Bool) :
    ∀ (l : List α) (acc : Nat), acc ≤ 4294967295 →
      l.foldl (fun acc a => if p a then min (acc + 1) 4294967295 else acc) acc
        = min (acc + l.countP p) 4294967295 := by
  intro l
  induction l with
  | nil => intro acc h; simp only [List.foldl_nil, List.countP_nil]; omega
  | cons a rest ih =>
      intro acc h
      simp only [List.foldl_cons, List.countP_cons]
      by_cases hp : p a = true
      · rw [if_pos hp, ih _ (Nat.min_le_right _ _), if_pos hp]
        omega
      · rw [if_neg hp, if_neg hp, ih _ h]
        omega

theorem sat_count_eq {α : Type} (l : List α) (p : α → Bool) :
    sat_count l p = min (l.countP p) 4294967295 := by
  have h := sat_count_fold p l 0 (by omega)
  simpa [sat_count] using h

theorem sum_map_add_nat {α : Type} (f g : α → Nat) :
    ∀ l : List α,
      (l.map (fun x => f x + g x)).sum = (l.map f).sum + (l.map g).sum := by
  intro l
  induction l with
  | nil => rfl
  | cons a rest ih =>
      simp only [List.map_cons, List.sum_cons, ih]
      omega

theorem sum_indicator (k : Nat) :
    ∀ n : Nat,
      ((List.range n).map (fun level => if k = level then 1 else 0)).sum
        = if k < n then 1 else 0 := by
  intro n
  induction n with
  | zero => simp
  | succ n ih =>
      rw [List.range_succ, List.map_append, List.sum_append, ih]
      simp only [List.map_cons, List.map_nil, List.sum_cons, List.sum_nil]
      by_cases hk : k < n
      · rw [if_pos hk, if_neg (by omega : ¬ k = n), if_pos (by omega)]
        omega
      · by_cases he : k = n
        · rw [if_neg hk, if_pos he, if_pos (by omega)]
          omega
        · rw [if_neg hk, if_neg he, if_neg (by omega)]
          omega

theorem sum_countP_levels (n : Nat) :
    ∀ l : List (Nat × MergeCell),
      ((List.range n).map
        (fun level => l.countP (fun c => decide (c.1 = level)))).sum
        = l.countP (fun c => decide (c.1 < n)) := by
  intro l
  induction l with
  | nil => simp
  | cons c rest ih =>
      simp only [List.countP_cons]
      rw [sum_map_add_nat (fun level => rest.countP
        (fun c => decide (c.1 = level)))
        (fun level => if decide (c.1 = level) = true then 1 else 0), ih]
      have hind := sum_indicator c.1 n
      simp only [decide_eq_true_eq]
      simp only [decide_eq_true_eq] at hind
      rw [hind]

theorem accepted_level_lt (scan : ScanSnapshot) (window : QueryWindow) :
    ∀ c ∈ v2_accepted_cells scan window, c.1 < scan.level_bounds.length := by
  intro c hc
  simp only [v2_accepted_cells, List.mem_filterMap] at hc
  obtain ⟨record, _, hf⟩ := hc
  split at hf
  case isFalse => exact absurd hf (by simp)
  case isTrue =>
    split at hf
    case isTrue => exact absurd hf (by simp)
    case isFalse hlt =>
      injection hf with h
      subst h
      omega

/-- C3: in every V2 /volume response, the per-level source-voxel counts of
the layer-count table sum to the `source_voxel_count` header value (both are
`u32` saturating counters; the hypothesis keeps the shared total below
`u32::MAX + 1`, where neither counter saturates). -/
theorem v2_layer_counts_sum_eq_source (scan : ScanSnapshot)
    (window : QueryWindow)
    (htotal : (v2_accepted_cells scan window).length < 4294967296) :
    (v2_layer_counts scan window).sum = v2_source_voxel_count scan window := by
  have hsat : ∀ p : Nat × MergeCell → Bool,
      sat_count (v2_accepted_cells scan window) p
        = (v2_accepted_cells scan window).countP p := by
    intro p
    rw [sat_count_eq]
    have hle : (v2_accepted_cells scan window).countP p ≤
        (v2_accepted_cells scan window).length := List.countP_le_length p
    omega
  simp only [v2_layer_counts, v2_source_voxel_count, hsat]
  rw [sum_countP_levels]
  have hall : ∀ c ∈ v2_accepted_cells scan window,
      (fun c : Nat × MergeCell =>
        decide (c.1 < scan.level_bounds.length)) c = true := by
    intro c hc
    simpa using accepted_level_lt scan window c hc
  rw [List.countP_eq_length.mpr hall, List.countP_true]

theorem v2_layer_counts_sum_eq_source_witness :
    (v2_accepted_cells exampleScanV2 exampleWindowV2).length < 4294967296 ∧
    v2_layer_counts exampleScanV2 exampleWindowV2 = [2, 2] ∧
    v2_source_voxel_count exampleScanV2 exampleWindowV2 = 4 ∧
    (v2_layer_counts exampleScanV2 exampleWindowV2).sum
      = v2_source_voxel_count exampleScanV2 exampleWindowV2 :=
  ⟨by decide, by decide, by decide,
   v2_layer_counts_sum_eq_source exampleScanV2 exampleWindowV2 (by decide)⟩

theorem rank_phase_scores_le (s : PhaseScores) :
    (rank_phase_scores s).1.1 ≤ 2 ∧ (rank_phase_scores s).2.1.1 ≤ 2 ∧
    (rank_phase_scores s).2.2.1 ≤ 2 := by
  by_cases h1 : s.mixed ≤ s.rain <;> by_cases h2 : s.snow ≤ s.mixed <;>
    by_cases h3 : s.snow ≤ s.rain <;>
    simp [rank_phase_scores, h1, h2, h3, PHASE_RAIN, PHASE_MIXED, PHASE_SNOW]

theorem select_phase_with_margin_le (thermo : ThermoPhaseEvidence)
    (rsc dms : Bool) (scores : PhaseScores) :
    (select_phase_with_margin thermo rsc dms scores).1 ≤ 2 := by
  obtain ⟨hr1, hr2, hr3⟩ := rank_phase_scores_le scores
  unfold select_phase_with_margin
  dsimp only
  split
  · split <;> split <;> split <;>
      first | exact hr1 | exact hr2 | exact hr3
  · exact hr1

theorem precip_snow_override_cases (t : ThermoPhaseEvidence) (p : Nat) :
    (precip_snow_override t p).1 = p ∨
    (precip_snow_override t p).1 = PHASE_SNOW := by
  unfold precip_snow_override
  split
  · split
    · right; rfl
    · left; rfl
  · left; rfl

theorem resolve_phase_le (thermo : ThermoPhaseEvidence)
    (dual : Option DualPolEvidence) (uaf : Bool) :
    (resolve_phase_from_evidence thermo dual uaf).phase ≤ 2 := by
  unfold resolve_phase_from_evidence
  dsimp only
  rcases precip_snow_override_cases thermo
      (select_phase_with_margin thermo _ _ _).1 with h | h
  · rw [h]
    exact select_phase_with_margin_le thermo _ _ _
  · rw [h]
    decide

/-! ## Ingest snapshot builder
(src/services/mrms-rs/src/ingest.rs, `ingest_timestamp`, lines 413-418 and
472-666): the per-level phase-resolution loop, the transition-edge
promotion, the tile bucketing and the tile-offset prefix table. -/

/-- `STORE_MIN_DBZ_TENTHS` from constants.rs. -/
def STORE_MIN_DBZ_TENTHS : Int := 50

/-- One parsed reflectivity level as the builder consumes it: the level's
index into the fixed level list and its row-major dBz-tenths raster
(`parsed.dbz_tenths` in the source).  A read past the raster's end yields
the default 0, which lies below the store threshold; the source would panic
there instead, so the difference is unobservable in the stored voxels. -/
structure ParsedLevel where
  level_idx : Nat
  dbz_tenths : List Int

/-- The per-cell double loop of `ingest_timestamp` (lines 495-570) for one
level: keep the cells whose dBz-tenths reach the store threshold, resolve
each kept cell's phase from its thermo/dual evidence, and compute the
transition-candidate flag (lines 550-568).  The aux-field sampling that
produces the evidence (`resolve_thermo_phase` / `resolve_dual_pol_evidence`
over the fetched grids) is abstracted as the function `evidence`; the
invariants proved below hold for every value it can take.  The `u16` casts
of the loop indices are the explicit `% 65536`. -/
def build_level_voxels (nx ny : Nat) (dbz : List Int)
    (evidence : Nat → Nat → ThermoPhaseEvidence × Option DualPolEvidence)
    (use_aux_fallback : Bool) : List LevelPhaseVoxel :=
  (List.range ny).flatMap (fun row =>
    (List.range nx).filterMap (fun col =>
      let dbz_tenths := dbz.getD (row * nx + col) 0
      if dbz_tenths < STORE_MIN_DBZ_TENTHS then none
      else
        let ev := evidence row col
        let resolution :=
          resolve_phase_from_evidence ev.1 ev.2 use_aux_fallback
        let thermo_competing :=
          decide (MIXED_COMPETING_RAIN_SNOW_MIN_SCORE ≤ ev.1.scores.rain) &&
          decide (MIXED_COMPETING_RAIN_SNOW_MIN_SCORE ≤ ev.1.scores.snow) &&
          decide ((ev.1.scores.rain.sub ev.1.scores.snow).abs ≤
            MIXED_COMPETING_RAIN_SNOW_DELTA_MAX.add ⟨45, 100⟩)
        let dual_mixed_candidate :=
          match ev.2 with
          | some sample =>
              decide (sample.phase = PHASE_MIXED) &&
                decide ((⟨35, 100⟩ : F) ≤ sample.confidence)
          | none => false
        let transition_candidate := !resolution.forced_precip_snow &&
          (ev.1.near_transition || thermo_competing || dual_mixed_candidate)
        some { row := row % 65536, col := col % 65536,
               dbz_tenths := dbz_tenths,
               phase := resolution.phase,
               transition_candidate := transition_candidate }))

/-- The tile-bucketing loop of `ingest_timestamp` (lines 575-586): each
promoted level voxel is appended to the bucket of its tile.  (The source
indexes `buckets[tile_idx]` directly and would panic on an out-of-range
tile; here such a write is a no-op.) -/
def bucket_step (tile_size tile_cols level_idx : Nat)
    (bs : List (List StoredVoxel)) (voxel : LevelPhaseVoxel) :
    List (List StoredVoxel) :=
  let tile_row := voxel.row / tile_size
  let tile_col := voxel.col / tile_size
  let tile_idx := tile_row * tile_cols + tile_col
  bs.set tile_idx (bs.getD tile_idx [] ++
    [⟨voxel.row, voxel.col, level_idx, voxel.phase, voxel.dbz_tenths⟩])

/-- The bucketing loop is the fold of `bucket_step` over the level's
promoted voxels. -/
def bucket_voxels (tile_size tile_cols level_idx : Nat)
    (buckets : List (List StoredVoxel))
    (level_voxels : List LevelPhaseVoxel) : List (List StoredVoxel) :=
  level_voxels.foldl (bucket_step tile_size tile_cols level_idx) buckets

/-- The bucket-flush loop of `ingest_timestamp` (lines 589-595):
`tile_offsets` starts as `[0]`; each bucket in order extends `voxels` and
then pushes `voxels.len() as u32` (the explicit `% 2^32`). -/
def flush_buckets (buckets : List (List StoredVoxel)) :
    List StoredVoxel × List Nat :=
  buckets.foldl
    (fun acc bucket =>
      (acc.1 ++ bucket,
       acc.2 ++ [(acc.1.length + bucket.length) % 4294967296]))
    ([], [0])

/-- One fetched level of the builder loop (lines 472-587): levels without
level bounds are skipped by the `continue`; the others run
`build_level_voxels`, the transition-edge promotion and the tile
bucketing. -/
def ingest_level_step (grid : GridDef) (tile_size tile_cols : Nat)
    (level_bounds : List LevelBounds)
    (evidence : Nat → Nat → Nat → ThermoPhaseEvidence × Option DualPolEvidence)
    (use_aux_fallback : Bool) (bs : List (List StoredVoxel))
    (lvl : ParsedLevel) : List (List StoredVoxel) :=
  match level_bounds.get? lvl.level_idx with
  | none => bs
  | some _ =>
      bucket_voxels tile_size tile_cols lvl.level_idx bs
        (promote_mixed_transition_edges
          (build_level_voxels grid.nx grid.ny lvl.dbz_tenths
            (evidence lvl.level_idx) use_aux_fallback)
          grid.nx grid.ny).1

/-- The snapshot-builder core of `ingest_timestamp`: tile layout from the
grid and configured tile size (lines 413-418, with the `u16` casts of the
tile counts explicit), one `ingest_level_step` per fetched level, then the
bucket flush and the snapshot record (lines 589-666).  Networking, GRIB
parsing, the debug counters/metadata and the wall-clock timestamps (here
fixed at 0) are outside the model. -/
def ingest_snapshot_core (timestamp : String) (grid : GridDef)
    (cfg_tile_size : Nat) (level_bounds : List LevelBounds)
    (levels : List ParsedLevel)
    (evidence : Nat → Nat → Nat → ThermoPhaseEvidence × Option DualPolEvidence)
    (use_aux_fallback : Bool) : ScanSnapshot :=
  let tile_size := max cfg_tile_size 16
  let tile_cols := ((grid.nx + tile_size - 1) / tile_size) % 65536
  let tile_rows := ((grid.ny + tile_size - 1) / tile_size) % 65536
  let tile_count := tile_cols * tile_rows
  let buckets0 : List (List StoredVoxel) :=
    (List.range tile_count).map (fun _ => [])
  let buckets := levels.foldl
    (ingest_level_step grid tile_size tile_cols level_bounds evidence
      use_aux_fallback) buckets0
  let flushed := flush_buckets buckets
  { timestamp := timestamp,
    generated_at_ms := 0,
    scan_time_ms := 0,
    grid := grid,
    tile_size := tile_size,
    tile_cols := tile_cols,
    tile_rows := tile_rows,
    level_bounds := level_bounds,
    tile_offsets := flushed.2,
    voxels := flushed.1 }

theorem build_level_voxels_mem (nx ny : Nat) (dbz : List Int)
    (evidence : Nat → Nat → ThermoPhaseEvidence × Option DualPolEvidence)
    (uaf : Bool) :
    ∀ x ∈ build_level_voxels nx ny dbz evidence uaf,
      STORE_MIN_DBZ_TENTHS ≤ x.dbz_tenths ∧ x.phase ≤ 2 ∧
      x.row < ny ∧ x.col < nx := by
  intro x hx
  simp only [build_level_voxels, List.mem_flatMap] at hx
  obtain ⟨row, hrow, hx⟩ := hx
  rw [List.mem_filterMap] at hx
  obtain ⟨col, hcol, hf⟩ := hx
  rw [List.mem_range] at hrow
  rw [List.mem_range] at hcol
  split at hf
  case isTrue => exact absurd hf (by simp)
  case isFalse hge =>
    injection hf with h
    subst h
    refine ⟨show STORE_MIN_DBZ_TENTHS ≤ dbz.getD (row * nx + col) 0 by omega,
      resolve_phase_le _ _ _, ?_, ?_⟩
    · exact Nat.lt_of_le_of_lt (Nat.mod_le row 65536) hrow
    · exact Nat.lt_of_le_of_lt (Nat.mod_le col 65536) hcol

theorem promote_members (records : List LevelPhaseVoxel) (nx ny : Nat) :
    ∀ v ∈ (promote_mixed_transition_edges records nx ny).1,
      ∃ r ∈ records, v = r ∨ v = { r with phase := PHASE_MIXED } := by
  intro v hv
  unfold promote_mixed_transition_edges at hv
  split at hv
  case isTrue => exact ⟨v, hv, Or.inl rfl⟩
  case isFalse =>
    dsimp only at hv
    rw [List.mem_map] at hv
    obtain ⟨idx, hidx, heq⟩ := hv
    rw [List.mem_range] at hidx
    refine ⟨records.getD idx default, getD_mem_of_lt records idx hidx, ?_⟩
    split at heq
    · right; exact heq.symm
    · left; exact heq.symm

theorem getD_mem {α : Type} (l : List α) (k : Nat) (d : α)
    (hk : k < l.length) : l.getD k d ∈ l := by
  rw [List.getD_eq_getElem _ _ hk]
  exact List.getElem_mem hk

theorem bucket_voxels_length (tile_size tile_cols level_idx : Nat) :
    ∀ (lvs : List LevelPhaseVoxel) (bs : List (List StoredVoxel)),
      (bucket_voxels tile_size tile_cols level_idx bs lvs).length
        = bs.length := by
  intro lvs
  induction lvs with
  | nil => intro bs; rfl
  | cons v rest ih =>
      intro bs
      simp only [bucket_voxels, List.foldl_cons] at ih ⊢
      rw [ih]
      simp [bucket_step]

theorem bucket_step_mem (Q : StoredVoxel → Prop) (ts tc li : Nat)
    (bs : List (List StoredVoxel)) (v : LevelPhaseVoxel)
    (hbs : ∀ b ∈ bs, ∀ w ∈ b, Q w)
    (hv : Q ⟨v.row, v.col, li, v.phase, v.dbz_tenths⟩) :
    ∀ b ∈ bucket_step ts tc li bs v, ∀ w ∈ b, Q w := by
  intro b hb w hw
  simp only [bucket_step] at hb
  by_cases hidx : v.row / ts * tc + v.col / ts < bs.length
  case neg =>
    rw [list_set_oob _ _ _ (Nat.le_of_not_lt hidx)] at hb
    exact hbs b hb w hw
  case pos =>
    rcases List.mem_or_eq_of_mem_set hb with hmem | hbeq
    · exact hbs b hmem w hw
    · subst hbeq
      rcases List.mem_append.mp hw with hw1 | hw2
      · exact hbs _ (getD_mem bs _ [] hidx) w hw1
      · rw [List.mem_singleton] at hw2
        subst hw2
        exact hv

theorem bucket_voxels_mem (Q : StoredVoxel → Prop) (ts tc li : Nat) :
    ∀ (lvs : List LevelPhaseVoxel) (bs : List (List StoredVoxel)),
      (∀ b ∈ bs, ∀ w ∈ b, Q w) →
      (∀ v ∈ lvs, Q ⟨v.row, v.col, li, v.phase, v.dbz_tenths⟩) →
      ∀ b ∈ bucket_voxels ts tc li bs lvs, ∀ w ∈ b, Q w := by
  intro lvs
  induction lvs with
  | nil => intro bs hbs _ b hb w hw; exact hbs b hb w hw
  | cons v rest ih =>
      intro bs hbs hlvs b hb w hw
      simp only [bucket_voxels, List.foldl_cons] at hb
      exact ih (bucket_step ts tc li bs v)
        (bucket_step_mem Q ts tc li bs v hbs
          (hlvs v (List.mem_cons_self v rest)))
        (fun x hx => hlvs x (List.mem_cons_of_mem v hx)) b hb w hw

theorem ingest_level_step_length (grid : GridDef) (ts tc : Nat)
    (lb : List LevelBounds)
    (ev : Nat → Nat → Nat → ThermoPhaseEvidence × Option DualPolEvidence)
    (uaf : Bool) (bs : List (List StoredVoxel)) (lvl : ParsedLevel) :
    (ingest_level_step grid ts tc lb ev uaf bs lvl).length = bs.length := by
  unfold ingest_level_step
  split
  · rfl
  · exact bucket_voxels_length ts tc lvl.level_idx _ bs

theorem ingest_level_step_mem (grid : GridDef) (ts tc : Nat)
    (lb : List LevelBounds)
    (ev : Nat → Nat → Nat → ThermoPhaseEvidence × Option DualPolEvidence)
    (uaf : Bool) (bs : List (List StoredVoxel)) (lvl : ParsedLevel)
    (hbs : ∀ b ∈ bs, ∀ w ∈ b,
      STORE_MIN_DBZ_TENTHS ≤ w.dbz_tenths ∧ w.level_idx < lb.length ∧
      w.phase ≤ 2 ∧ w.row < grid.ny ∧ w.col < grid.nx) :
    ∀ b ∈ ingest_level_step grid ts tc lb ev uaf bs lvl, ∀ w ∈ b,
      STORE_MIN_DBZ_TENTHS ≤ w.dbz_tenths ∧ w.level_idx < lb.length ∧
      w.phase ≤ 2 ∧ w.row < grid.ny ∧ w.col < grid.nx := by
  unfold ingest_level_step
  split
  case h_1 => exact hbs
  case h_2 heq =>
    have hlt : lvl.level_idx < lb.length := by
      by_contra hge
      rw [List.get?_eq_none.mpr (Nat.le_of_not_lt hge)] at heq
      exact absurd heq (by simp)
    apply bucket_voxels_mem _ ts tc lvl.level_idx _ bs hbs
    intro v hv
    obtain ⟨r, hr, hcase⟩ := promote_members _ grid.nx grid.ny v hv
    obtain ⟨hd, hp, hrow, hcol⟩ :=
      build_level_voxels_mem grid.nx grid.ny lvl.dbz_tenths
        (ev lvl.level_idx) uaf r hr
    rcases hcase with rfl | rfl
    · exact ⟨hd, hlt, hp, hrow, hcol⟩
    · exact ⟨hd, hlt, show PHASE_MIXED ≤ 2 by decide, hrow, hcol⟩

theorem ingest_levels_fold_length (grid : GridDef) (ts tc : Nat)
    (lb : List LevelBounds)
    (ev : Nat → Nat → Nat → ThermoPhaseEvidence × Option DualPolEvidence)
    (uaf : Bool) :
    ∀ (levels : List ParsedLevel) (bs : List (List StoredVoxel)),
      (levels.foldl (ingest_level_step grid ts tc lb ev uaf) bs).length
        = bs.length := by
  intro levels
  induction levels with
  | nil => intro bs; rfl
  | cons lvl rest ih =>
      intro bs
      rw [List.foldl_cons, ih, ingest_level_step_length]

theorem ingest_levels_fold_mem (grid : GridDef) (ts tc : Nat)
    (lb : List LevelBounds)
    (ev : Nat → Nat → Nat → ThermoPhaseEvidence × Option DualPolEvidence)
    (uaf : Bool) :
    ∀ (levels : List ParsedLevel) (bs : List (List StoredVoxel)),
      (∀ b ∈ bs, ∀ w ∈ b,
        STORE_MIN_DBZ_TENTHS ≤ w.dbz_tenths ∧ w.level_idx < lb.length ∧
        w.phase ≤ 2 ∧ w.row < grid.ny ∧ w.col < grid.nx) →
      ∀ b ∈ levels.foldl (ingest_level_step grid ts tc lb ev uaf) bs,
        ∀ w ∈ b,
          STORE_MIN_DBZ_TENTHS ≤ w.dbz_tenths ∧ w.level_idx < lb.length ∧
          w.phase ≤ 2 ∧ w.row < grid.ny ∧ w.col < grid.nx := by
  intro levels
  induction levels with
  | nil => intro bs hbs b hb w hw; exact hbs b hb w hw
  | cons lvl rest ih =>
      intro bs hbs b hb w hw
      rw [List.foldl_cons] at hb
      exact ih _ (ingest_level_step_mem grid ts tc lb ev uaf bs lvl hbs)
        b hb w hw

theorem flush_fold_fst :
    ∀ (buckets : List (List StoredVoxel)) (vacc : List StoredVoxel)
      (oacc : List Nat),
      (buckets.foldl
        (fun acc bucket =>
          (acc.1 ++ bucket,
           acc.2 ++ [(acc.1.length + bucket.length) % 4294967296]))
        (vacc, oacc)).1 = vacc ++ buckets.flatten := by
  intro buckets
  induction buckets with
  | nil => intro vacc oacc; simp
  | cons b bs ih =>
      intro vacc oacc
      rw [List.foldl_cons]
      rw [ih (vacc ++ b) _]
      simp [List.flatten_cons, List.append_assoc]

theorem flush_fold_snd_len :
    ∀ (buckets : List (List StoredVoxel)) (vacc : List StoredVoxel)
      (oacc : List Nat),
      (buckets.foldl
        (fun acc bucket =>
          (acc.1 ++ bucket,
           acc.2 ++ [(acc.1.length + bucket.length) % 4294967296]))
        (vacc, oacc)).2.length = oacc.length + buckets.length := by
  intro buckets
  induction buckets with
  | nil => intro vacc oacc; simp
  | cons b bs ih =>
      intro vacc oacc
      rw [List.foldl_cons]
      rw [ih (vacc ++ b) _]
      simp
      omega

theorem flush_fold_prefix :
    ∀ (buckets : List (List StoredVoxel)) (vacc : List StoredVoxel)
      (oacc : List Nat),
      ∃ t, (buckets.foldl
        (fun acc bucket =>
          (acc.1 ++ bucket,
           acc.2 ++ [(acc.1.length + bucket.length) % 4294967296]))
        (vacc, oacc)).2 = oacc ++ t := by
  intro buckets
  induction buckets with
  | nil => intro vacc oacc; exact ⟨[], (List.append_nil oacc).symm⟩
  | cons b bs ih =>
      intro vacc oacc
      rw [List.foldl_cons]
      obtain ⟨t, ht⟩ := ih (vacc ++ b)
        (oacc ++ [(vacc.length + b.length) % 4294967296])
      exact ⟨[(vacc.length + b.length) % 4294967296] ++ t,
        by rw [ht, List.append_assoc]⟩

theorem flush_fold_chain :
    ∀ (buckets : List (List StoredVoxel)) (vacc : List StoredVoxel)
      (oacc : List Nat),
      vacc.length + buckets.flatten.length < 4294967296 →
      List.Chain' (· ≤ ·) oacc →
      oacc.getLast? = some vacc.length →
      List.Chain' (· ≤ ·)
        (buckets.foldl
          (fun acc bucket =>
            (acc.1 ++ bucket,
             acc.2 ++ [(acc.1.length + bucket.length) % 4294967296]))
          (vacc, oacc)).2 ∧
      (buckets.foldl
        (fun acc bucket =>
          (acc.1 ++ bucket,
           acc.2 ++ [(acc.1.length + bucket.length) % 4294967296]))
        (vacc, oacc)).2.getLast?
        = some (buckets.foldl
          (fun acc bucket =>
            (acc.1 ++ bucket,
             acc.2 ++ [(acc.1.length + bucket.length) % 4294967296]))
          (vacc, oacc)).1.length := by
  intro buckets
  induction buckets with
  | nil =>
      intro vacc oacc _ hch hlast
      exact ⟨hch, hlast⟩
  | cons b bs ih =>
      intro vacc oacc hlt hch hlast
      have hblen : vacc.length + b.length < 4294967296 := by
        simp only [List.flatten_cons, List.length_append] at hlt
        omega
      have hmod : (vacc.length + b.length) % 4294967296
          = vacc.length + b.length := Nat.mod_eq_of_lt hblen
      rw [List.foldl_cons]
      apply ih (vacc ++ b) _
      · simp only [List.flatten_cons, List.length_append] at hlt ⊢
        omega
      · rw [hmod]
        refine List.chain'_append.mpr ⟨hch, List.chain'_singleton _, ?_⟩
        intro x hx y hy
        rw [hlast] at hx
        rw [Option.mem_def, Option.some.injEq] at hx
        subst hx
        simp only [List.head?_cons, Option.mem_def, Option.some.injEq] at hy
        omega
      · rw [hmod, List.getLast?_concat, List.length_append]

theorem chain_le_getD (l : List Nat) (hch : List.Chain' (· ≤ ·) l) :
    ∀ i, i + 1 < l.length → l.getD i 0 ≤ l.getD (i + 1) 0 := by
  intro i hi
  rw [List.getD_eq_getElem _ _ (by omega), List.getD_eq_getElem _ _ hi]
  exact List.chain'_iff_get.mp hch i (by omega)

theorem flush_buckets_props (buckets : List (List StoredVoxel))
    (h : (flush_buckets buckets).1.length < 4294967296) :
    (flush_buckets buckets).2.getD 0 0 = 0 ∧
    (flush_buckets buckets).2.length = buckets.length + 1 ∧
    (∀ i, i + 1 < (flush_buckets buckets).2.length →
      (flush_buckets buckets).2.getD i 0
        ≤ (flush_buckets buckets).2.getD (i + 1) 0) ∧
    (flush_buckets buckets).2.getLast?
      = some (flush_buckets buckets).1.length ∧
    (flush_buckets buckets).1 = buckets.flatten := by
  unfold flush_buckets at h ⊢
  have htot : ([] : List StoredVoxel).length + buckets.flatten.length
      < 4294967296 := by
    rw [flush_fold_fst] at h
    simpa using h
  obtain ⟨hch, hlast⟩ := flush_fold_chain buckets [] [0] htot
    (List.chain'_singleton 0) (by simp)
  refine ⟨?_, ?_, ?_, hlast, ?_⟩
  · obtain ⟨t, ht⟩ := flush_fold_prefix buckets [] [0]
    rw [ht]
    rfl
  · rw [flush_fold_snd_len]
    simp [Nat.add_comm]
  · intro i hi
    exact chain_le_getD _ hch i hi
  · rw [flush_fold_fst]
    rfl

theorem ingest_core_props (timestamp : String) (grid : GridDef) (cts : Nat)
    (lb : List LevelBounds) (levels : List ParsedLevel)
    (ev : Nat → Nat → Nat → ThermoPhaseEvidence × Option DualPolEvidence)
    (uaf : Bool)
    (htotal : (ingest_snapshot_core timestamp grid cts lb levels ev
      uaf).voxels.length < 4294967296) :
    (ingest_snapshot_core timestamp grid cts lb levels ev
      uaf).tile_offsets.getD 0 0 = 0 ∧
    (ingest_snapshot_core timestamp grid cts lb levels ev
      uaf).tile_offsets.length
      = (ingest_snapshot_core timestamp grid cts lb levels ev uaf).tile_cols
        * (ingest_snapshot_core timestamp grid cts lb levels ev uaf).tile_rows
        + 1 ∧
    (∀ i, i + 1 < (ingest_snapshot_core timestamp grid cts lb levels ev
        uaf).tile_offsets.length →
      (ingest_snapshot_core timestamp grid cts lb levels ev
        uaf).tile_offsets.getD i 0
        ≤ (ingest_snapshot_core timestamp grid cts lb levels ev
          uaf).tile_offsets.getD (i + 1) 0) ∧
    (ingest_snapshot_core timestamp grid cts lb levels ev
      uaf).tile_offsets.getLast?
      = some (ingest_snapshot_core timestamp grid cts lb levels ev
        uaf).voxels.length ∧
    ∀ v ∈ (ingest_snapshot_core timestamp grid cts lb levels ev uaf).voxels,
      STORE_MIN_DBZ_TENTHS ≤ v.dbz_tenths ∧ v.level_idx < lb.length ∧
      (v.phase = 0 ∨ v.phase = 1 ∨ v.phase = 2) ∧
      v.row < grid.ny ∧ v.col < grid.nx := by
  simp only [ingest_snapshot_core]
  obtain ⟨h1, h2, h3, h4, h5⟩ := flush_buckets_props _ htotal
  refine ⟨h1, ?_, h3, h4, ?_⟩
  · rw [h2, ingest_levels_fold_length]
    simp
  · intro v hv
    rw [h5] at hv
    rw [List.mem_flatten] at hv
    obtain ⟨b, hb, hvb⟩ := hv
    have hmem := ingest_levels_fold_mem grid (max cts 16)
      ((grid.nx + (max cts 16) - 1) / (max cts 16) % 65536) lb ev uaf
      levels _ ?_ b hb v hvb
    · obtain ⟨hd, hl, hp, hr, hc⟩ := hmem
      exact ⟨hd, hl, by omega, hr, hc⟩
    · intro b0 hb0 w hw
      rw [List.mem_map] at hb0
      obtain ⟨_, _, hb0eq⟩ := hb0
      rw [← hb0eq] at hw
      exact absurd hw (List.not_mem_nil w)

/-- C8: every snapshot the ingest builder produces with the fixed 33-level
bounds table satisfies `tile_offsets[0] = 0`,
`|tile_offsets| = tile_count + 1`, `tile_offsets` non-decreasing with last
entry `|voxels|` (the offsets are `u32`; the hypothesis keeps the voxel
total below `u32::MAX + 1`, where the counters cannot wrap), and every
stored voxel has `dbz_tenths ≥ 50`, `level_idx < 33`, `phase ∈ {0,1,2}`,
`row < ny` and `col < nx` — for every grid, tile size, fetched level list
and evidence assignment. -/
theorem ingest_snapshot_invariants (timestamp : String) (grid : GridDef)
    (cts : Nat) (levels : List ParsedLevel)
    (ev : Nat → Nat → Nat → ThermoPhaseEvidence × Option DualPolEvidence)
    (uaf : Bool)
    (htotal : (ingest_snapshot_core timestamp grid cts mrmsLevelBounds
      levels ev uaf).voxels.length < 4294967296) :
    (ingest_snapshot_core timestamp grid cts mrmsLevelBounds levels ev
      uaf).tile_offsets.getD 0 0 = 0 ∧
    (ingest_snapshot_core timestamp grid cts mrmsLevelBounds levels ev
      uaf).tile_offsets.length
      = (ingest_snapshot_core timestamp grid cts mrmsLevelBounds levels ev
          uaf).tile_cols
        * (ingest_snapshot_core timestamp grid cts mrmsLevelBounds levels ev
          uaf).tile_rows + 1 ∧
    (∀ i, i + 1 < (ingest_snapshot_core timestamp grid cts mrmsLevelBounds
        levels ev uaf).tile_offsets.length →
      (ingest_snapshot_core timestamp grid cts mrmsLevelBounds levels ev
        uaf).tile_offsets.getD i 0
        ≤ (ingest_snapshot_core timestamp grid cts mrmsLevelBounds levels ev
          uaf).tile_offsets.getD (i + 1) 0) ∧
    (ingest_snapshot_core timestamp grid cts mrmsLevelBounds levels ev
      uaf).tile_offsets.getLast?
      = some (ingest_snapshot_core timestamp grid cts mrmsLevelBounds levels
        ev uaf).voxels.length ∧
    ∀ v ∈ (ingest_snapshot_core timestamp grid cts mrmsLevelBounds levels ev
        uaf).voxels,
      (50 : Int) ≤ v.dbz_tenths ∧ v.level_idx < 33 ∧
      (v.phase = 0 ∨ v.phase = 1 ∨ v.phase = 2) ∧
      v.row < grid.ny ∧ v.col < grid.nx := by
  obtain ⟨h1, h2, h3, h4, h5⟩ := ingest_core_props timestamp grid cts
    mrmsLevelBounds levels ev uaf htotal
  refine ⟨h1, h2, h3, h4, ?_⟩
  intro v hv
  obtain ⟨hd, hl, hp, hr, hc⟩ := h5 v hv
  have h33 : mrmsLevelBounds.length = 33 := by rfl
  rw [h33] at hl
  exact ⟨hd, hl, hp, hr, hc⟩

/-- A 2x2 single-level concrete input for the ingest-builder witness. -/
def exampleIngestGrid : GridDef :=
  { nx := 2, ny := 2, la1_deg := 40, lo1_deg360 := 285,
    di_deg := ⟨1, 100⟩, dj_deg := ⟨1, 100⟩, scanning_mode := 0,
    lat_step_deg := ⟨-1, 100⟩, lon_step_deg := ⟨1, 100⟩ }

/-- Rain-dominant thermo evidence for the ingest-builder witness. -/
def exampleThermoEvidence : ThermoPhaseEvidence :=
  { scores := { rain := ⟨3, 1⟩, mixed := 0, snow := 0 },
    phase := PHASE_RAIN, confidence := ⟨1, 2⟩, signal_count := 1,
    near_transition := false, precip_flag_phase := none, rqi := none }

/-- One fetched level (index 0) whose top raster row clears the store
threshold. -/
def exampleIngestLevels : List ParsedLevel := [⟨0, [100, 100, 0, 0]⟩]

/-- The constant evidence assignment for the witness. -/
def exampleEvidence :
    Nat → Nat → Nat → ThermoPhaseEvidence × Option DualPolEvidence :=
  fun _ _ _ => (exampleThermoEvidence, none)

theorem ingest_snapshot_invariants_witness :
    (ingest_snapshot_core "20260101-000000" exampleIngestGrid 16
      mrmsLevelBounds exampleIngestLevels exampleEvidence
      false).voxels.length < 4294967296 ∧
    (ingest_snapshot_core "20260101-000000" exampleIngestGrid 16
      mrmsLevelBounds exampleIngestLevels exampleEvidence
      false).voxels.length = 2 ∧
    ((ingest_snapshot_core "20260101-000000" exampleIngestGrid 16
      mrmsLevelBounds exampleIngestLevels exampleEvidence
      false).tile_offsets.getD 0 0 = 0 ∧
    (ingest_snapshot_core "20260101-000000" exampleIngestGrid 16
      mrmsLevelBounds exampleIngestLevels exampleEvidence
      false).tile_offsets.length
      = (ingest_snapshot_core "20260101-000000" exampleIngestGrid 16
          mrmsLevelBounds exampleIngestLevels exampleEvidence
          false).tile_cols
        * (ingest_snapshot_core "20260101-000000" exampleIngestGrid 16
          mrmsLevelBounds exampleIngestLevels exampleEvidence
          false).tile_rows + 1 ∧
    (∀ i, i + 1 < (ingest_snapshot_core "20260101-000000" exampleIngestGrid
        16 mrmsLevelBounds exampleIngestLevels exampleEvidence
        false).tile_offsets.length →
      (ingest_snapshot_core "20260101-000000" exampleIngestGrid 16
        mrmsLevelBounds exampleIngestLevels exampleEvidence
        false).tile_offsets.getD i 0
        ≤ (ingest_snapshot_core "20260101-000000" exampleIngestGrid 16
          mrmsLevelBounds exampleIngestLevels exampleEvidence
          false).tile_offsets.getD (i + 1) 0) ∧
    (ingest_snapshot_core "20260101-000000" exampleIngestGrid 16
      mrmsLevelBounds exampleIngestLevels exampleEvidence
      false).tile_offsets.getLast?
      = some (ingest_snapshot_core "20260101-000000" exampleIngestGrid 16
        mrmsLevelBounds exampleIngestLevels exampleEvidence
        false).voxels.length ∧
    ∀ v ∈ (ingest_snapshot_core "20260101-000000" exampleIngestGrid 16
        mrmsLevelBounds exampleIngestLevels exampleEvidence false).voxels,
      (50 : Int) ≤ v.dbz_tenths ∧ v.level_idx < 33 ∧
      (v.phase = 0 ∨ v.phase = 1 ∨ v.phase = 2) ∧
      v.row < exampleIngestGrid.ny ∧ v.col < exampleIngestGrid.nx) :=
  ⟨by decide, by decide,
   ingest_snapshot_invariants "20260101-000000" exampleIngestGrid 16
     exampleIngestLevels exampleEvidence false (by decide)⟩
